import Mathlib

/-!
# stat-ln-deref: a shallow embedding of `main.cpp`

The program calls `lstat()` on each command-line argument and, for a symbolic
link, reads the link text and calls itself on it, two columns further to the
right, until it reaches an entry that is not a symbolic link.

Conventions of the embedding.

* Path text and console text are `String`; one `Char` stands for one byte of
  the C strings of the source.
* The operating system is a record `OS` of the four library calls whose result
  the program depends on (`lstat`, `readlink`, `strerror`, `ctime`).  A path
  string is looked up exactly as the source passes it to the system call, so a
  relative string is relative to the working directory of the process.
* The run of `stat_filepath` is a list of `Event`s in program order: entry of the
  function, every `lstat`/`readlink` call, and every `printf`/`fprintf`/`puts`
  call (one `Line` each).  `Line.render` gives the exact text of a line.
* The call stack is the first argument of `stat_filepath`: the number of nested
  invocations it has room for.  The call of line 105 is not a tail call, and
  an invocation on a link keeps its buffer of 2048 bytes (line 85) until the
  nested call has returned.  The result `none` means that the nesting needs
  more room than there is: the process is killed by the stack overflow and no
  invocation returns.  So a call returns on a large enough stack when some
  room gives a run, and on no stack at all when every room gives `none`.
* The value of `int depth` grows by 2 per hop and is held in a `Nat`; a
  statement about chains of any length carries the bound that keeps `depth`
  below `2^31`.
-/

namespace StatLnDeref

/-! ## `std::filesystem::path` queries used by the source

The library is not part of the repository; the queries follow the C++17
standard for POSIX paths, where the separator is `/` and there is no root
name. -/

/-- Library call `fs::path::empty()`. -/
def path_empty (p : String) : Bool := p.data.isEmpty

/-- Library call `fs::path::has_root_path()`: on POSIX a path has a root exactly when it
starts with the directory separator. -/
def has_root_path (p : String) : Bool := p.data.head? == some '/'

/-- Library call `fs::path::has_filename()`: the path is not empty and does not end in a
directory separator. -/
def has_filename (p : String) : Bool :=
  match p.data.getLast? with
  | some c => c != '/'
  | none => false

/-- Library call `base_dir /= p` followed by `base_dir.string()`: a rooted `p` replaces the
left operand; otherwise a separator is appended when the left operand has a
filename, and then the text of `p`. -/
def path_join (base_dir p : String) : String :=
  if has_root_path p then p
  else if has_filename base_dir then base_dir ++ "/" ++ p
  else base_dir ++ p

/-- Library call `fs::path::parent_path()`: the path itself when it has no relative part
(empty, or separators only); otherwise the text up to, not including, the
last filename and the separators in front of it, where the root directory is
kept as one separator. -/
def parent_path (p : String) : String :=
  if p.data.all (fun c => c == '/') then p
  else
    let stem := p.data.reverse.dropWhile (fun c => c != '/')
    let dir := stem.dropWhile (fun c => c == '/')
    if stem.isEmpty then ""
    else if dir.isEmpty then "/"
    else String.mk dir.reverse

/-- Library call `fs::path::has_parent_path()`: the parent path is not empty. -/
def has_parent_path (p : String) : Bool := !(path_empty (parent_path p))

/-! ## `struct stat` and the constants of `<sys/stat.h>`, `<cerrno>`, `<cstdlib>` -/

/-- The fields of `struct stat` that the source prints. -/
structure Stat where
  st_ino : Nat
  st_mode : Nat
  st_nlink : Nat
  st_uid : Nat
  st_gid : Nat
  st_blksize : Int
  st_size : Int
  st_blocks : Int
  st_ctime : Int
  st_atime : Int
  st_mtime : Int
  deriving DecidableEq

/-- The file-type mask and the file types of `<sys/stat.h>` on Linux. -/
def S_IFMT : Nat := 0o170000
def S_IFSOCK : Nat := 0o140000
def S_IFLNK : Nat := 0o120000
def S_IFREG : Nat := 0o100000
def S_IFBLK : Nat := 0o060000
def S_IFDIR : Nat := 0o040000
def S_IFCHR : Nat := 0o020000
def S_IFIFO : Nat := 0o010000

def ENOENT : Nat := 2
def ELOOP : Nat := 40

def EXIT_SUCCESS : Nat := 0
def EXIT_FAILURE : Nat := 1

/-- The library calls the program depends on.  `lstat` and `readlink` answer
for a path string with a result or an `errno` value; `readlink` holds the whole
text stored in the link. -/
structure OS where
  lstat : String → Except Nat Stat
  readlink : String → Except Nat String
  strerror : Nat → String
  ctime : Int → String

/-- System call `readlink(path, buf, bufsiz)`: at most `bufsiz` bytes of the link text are
placed in the buffer, a longer text is cut without notice; the return value
is the length of the text placed. -/
def sys_readlink (os : OS) (path : String) (bufsiz : Nat) : Except Nat String :=
  match os.readlink path with
  | .error ec => .error ec
  | .ok text => .ok (String.mk (text.data.take bufsiz))

/-! ## Console lines -/

/-- One `printf`, `fprintf` or `puts` call of the source. -/
inductive Line where
  | usage
  | header (path : String)
  | type_line (depth : Nat) (typeword path : String)
  | ino (depth : Nat) (v : Int)
  | mode (depth : Nat) (v : Nat)
  | nlink (depth : Nat) (v : Int)
  | ownership (depth : Nat) (uid gid : Int)
  | blksize (depth : Nat) (v : Int)
  | size (depth : Nat) (v : Int)
  | blocks (depth : Nat) (v : Int)
  | status_change (depth : Nat) (text : String)
  | file_access (depth : Nat) (text : String)
  | modification (depth : Nat) (text : String)
  | error (depth : Nat) (syscall path : String) (ec : Nat) (msg : String)
  | warn (depth : Nat) (text : String)
  deriving DecidableEq

/-- Conversion `"%*s"` with the width `depth` and the empty string `spc`. -/
def indent (depth : Nat) : String := String.mk (List.replicate depth ' ')

/-- Cast `(long) x` for an unsigned 64 bit `x`. -/
def to_long (x : Nat) : Int :=
  if x % 2 ^ 64 < 2 ^ 63 then ((x % 2 ^ 64 : Nat) : Int) else ((x % 2 ^ 64 : Nat) : Int) - 2 ^ 64

/-- Conversions `"%ld"` and `"%lld"`. -/
def dec (v : Int) : String := toString v

/-- Conversion `"%d"` of an `errno` value. -/
def dec_nat (v : Nat) : String := toString v

/-- Conversion `"%lo"` of `(unsigned long) x`. -/
def oct (x : Nat) : String := String.mk (Nat.toDigits 8 (x % 2 ^ 64))

/-- The text written by each call, from its format string. -/
def Line.render : Line → String
  | .usage => "Expect one or more filepath arguments" ++ "\n"
  | .header path => "\"" ++ path ++ "\" ==>>\n"
  | .type_line depth typeword path => indent depth ++ typeword ++ ": \"" ++ path ++ "\"\n"
  | .ino depth v => indent depth ++ "I-node number:            " ++ dec v ++ "\n"
  | .mode depth v => indent depth ++ "Mode:                     " ++ oct v ++ " (octal)\n"
  | .nlink depth v => indent depth ++ "Link count:               " ++ dec v ++ "\n"
  | .ownership depth uid gid =>
      indent depth ++ "Ownership:                UID=" ++ dec uid ++ "   GID=" ++ dec gid ++ "\n"
  | .blksize depth v => indent depth ++ "Preferred I/O block size: " ++ dec v ++ " bytes\n"
  | .size depth v => indent depth ++ "File size:                " ++ dec v ++ " bytes\n"
  | .blocks depth v => indent depth ++ "Blocks allocated:         " ++ dec v ++ "\n"
  | .status_change depth text => indent depth ++ "Last status change:       " ++ text
  | .file_access depth text => indent depth ++ "Last file access:         " ++ text
  | .modification depth text => indent depth ++ "Last file modification:   " ++ text
  | .error depth syscall path ec msg =>
      indent depth ++ "ERROR: " ++ "stat_filepath" ++ "(): on call to " ++ syscall ++ "(): \""
        ++ path ++ "\"; ec=" ++ dec_nat ec ++ "; " ++ msg ++ "\n"
  | .warn depth text =>
      indent depth ++ "WARN: \"" ++ text ++ "\" may be a truncated file name due to buffer size limit\n"

/-- The stream of a line: `true` for standard error (`fprintf(stderr, ...)`). -/
def Line.to_stderr : Line → Bool
  | .error _ _ _ _ _ => true
  | .warn _ _ => true
  | _ => false

/-- What happens during a run, in program order. -/
inductive Event where
  | enter (base_dir filepath : String) (depth : Nat)
  | lstat_call (path : String)
  | readlink_call (path : String)
  | out (l : Line)
  deriving DecidableEq

/-! ## `stat_filepath` -/

/-- How the `for` loop of lines 54-72 is left. -/
inductive LoopExit where
  /-- Left by `return` after the ERROR line (line 69). -/
  | returned
  /-- Left by `break` after a successful `lstat` (line 71), with the current `filepath` and `sb`. -/
  | broke (filepath : String) (sb : Stat)
  /-- Left through the loop condition `i-- > 0`; `sb` was never written. -/
  | exhausted
  deriving DecidableEq

/-- The loop `for(int i = 2; i-- > 0;)` of lines 54-72.  The first argument is
the value of `i` when the condition is tested; in the body `i` is one less. -/
def lstat_loop (os : OS) (depth : Nat) : Nat → String → String → List Event × LoopExit
  | 0, _, _ => ([], .exhausted)
  | i + 1, base_dir, filepath =>
    match os.lstat filepath with
    | .error ec =>
      if ec = ENOENT ∧ 0 < i ∧ path_empty base_dir = false then
        if has_root_path filepath = false then
          let alt_full_path := path_join base_dir filepath
          let r := lstat_loop os depth i alt_full_path alt_full_path
          (Event.lstat_call filepath :: r.1, r.2)
        else
          ([.lstat_call filepath, .out (.error depth "lstat" filepath ec (os.strerror ec))], .returned)
      else
        ([.lstat_call filepath, .out (.error depth "lstat" filepath ec (os.strerror ec))], .returned)
    | .ok sb => ([.lstat_call filepath], .broke filepath sb)

def full_buf_size : Nat := 2048
def buf_size : Nat := full_buf_size - 1

/-- The type word of the `switch` of lines 75-112 for the cases that `break`. -/
def typeword (st_mode : Nat) : String :=
  if st_mode &&& S_IFMT = S_IFBLK then "block device"
  else if st_mode &&& S_IFMT = S_IFCHR then "character device"
  else if st_mode &&& S_IFMT = S_IFDIR then "directory"
  else if st_mode &&& S_IFMT = S_IFIFO then "FIFO/pipe"
  else if st_mode &&& S_IFMT = S_IFREG then "regular file"
  else if st_mode &&& S_IFMT = S_IFSOCK then "socket"
  else "unknown?"

/-- The ten `printf` calls of lines 115-124. -/
def record (os : OS) (depth : Nat) (sb : Stat) : List Line :=
  [ .ino depth (to_long sb.st_ino),
    .mode depth sb.st_mode,
    .nlink depth (to_long sb.st_nlink),
    .ownership depth (to_long sb.st_uid) (to_long sb.st_gid),
    .blksize depth sb.st_blksize,
    .size depth sb.st_size,
    .blocks depth sb.st_blocks,
    .status_change depth (os.ctime sb.st_ctime),
    .file_access depth (os.ctime sb.st_atime),
    .modification depth (os.ctime sb.st_mtime) ]

/-- The `parent_dir_path` of lines 97-103. -/
def parent_dir_path (filepath sym_ln : String) : String :=
  if has_root_path sym_ln = false then
    if has_parent_path filepath then parent_path filepath else ""
  else ""

/-- The function `stat_filepath` of lines 49-125; the first argument is the room
of the call stack, counted in nested invocations, and `none` is the stack
overflow. -/
def stat_filepath (os : OS) : Nat → String → String → Nat → Option (List Event)
  | 0, _, _, _ => none
  | fuel + 1, base_dir, filepath0, depth =>
    match lstat_loop os depth 2 base_dir filepath0 with
    | (ev, .returned) => some (.enter base_dir filepath0 depth :: ev)
    | (_, .exhausted) => none
    | (ev, .broke filepath sb) =>
      if sb.st_mode &&& S_IFMT = S_IFLNK then
        match sys_readlink os filepath buf_size with
        | .error ec =>
          some (.enter base_dir filepath0 depth :: ev ++
            [.out (.type_line depth "symlink" filepath), .readlink_call filepath,
             .out (.error depth "readlink" filepath ec (os.strerror ec))])
        | .ok sym_ln =>
          match stat_filepath os fuel (parent_dir_path filepath sym_ln) sym_ln (depth + 2) with
          | none => none
          | some rest =>
            some (.enter base_dir filepath0 depth :: ev ++
              [.out (.type_line depth "symlink" filepath), .readlink_call filepath] ++
              (if sym_ln.length = buf_size then [Event.out (.warn depth sym_ln)] else []) ++ rest)
      else
        some (.enter base_dir filepath0 depth :: ev ++
          .out (.type_line depth (typeword sb.st_mode) filepath) ::
          (record os depth sb).map Event.out)

/-! ## `main` -/

/-- The `for` loop of lines 42-46 over the path arguments. -/
def main_loop (os : OS) (fuel : Nat) : List String → Option (List Event)
  | [] => some []
  | filepath :: rest =>
    match stat_filepath os fuel "" filepath 2 with
    | none => none
    | some ev =>
      match main_loop os fuel rest with
      | none => none
      | some ev2 => some (.out (.header filepath) :: ev ++ ev2)

/-- The function `main` of lines 35-47: the events and the exit status.
`argv` holds the program name first, `argc` is its length. -/
def main (os : OS) (fuel : Nat) (argv : List String) : Option (List Event × Nat) :=
  if argv.length < 2 then some ([.out .usage], EXIT_FAILURE)
  else
    match main_loop os fuel (argv.drop 1) with
    | none => none
    | some ev => some (ev, EXIT_SUCCESS)

/-! ## Reading a run -/

/-- The console lines of a run, both streams, in program order. -/
def lines : List Event → List Line
  | [] => []
  | .out l :: rest => l :: lines rest
  | _ :: rest => lines rest

def Line.is_error : Line → Bool
  | .error _ _ _ _ _ => true
  | _ => false

def Line.is_warn : Line → Bool
  | .warn _ _ => true
  | _ => false

def Line.is_type_line : Line → Bool
  | .type_line _ _ _ => true
  | _ => false

/-- One of the ten field lines of a metadata record. -/
def Line.is_field : Line → Bool
  | .ino _ _ => true
  | .mode _ _ => true
  | .nlink _ _ => true
  | .ownership _ _ _ => true
  | .blksize _ _ => true
  | .size _ _ => true
  | .blocks _ _ => true
  | .status_change _ _ => true
  | .file_access _ _ => true
  | .modification _ _ => true
  | _ => false

def Event.is_enter : Event → Bool
  | .enter _ _ _ => true
  | _ => false

/-- The number of times `stat_filepath` is entered. -/
def enter_count (ev : List Event) : Nat := ev.countP Event.is_enter

/-- The arguments of the `lstat` calls, in order. -/
def lstat_calls : List Event → List String
  | [] => []
  | .lstat_call p :: rest => p :: lstat_calls rest
  | _ :: rest => lstat_calls rest

/-- The text on standard output. -/
def stdout_lines (ev : List Event) : List Line := (lines ev).filter (fun l => !l.to_stderr)

/-- The text on standard error. -/
def stderr_lines (ev : List Event) : List Line := (lines ev).filter (fun l => l.to_stderr)

/-! ## What the claims speak about -/

/-- Where a symbolic link leads: a rooted link text names the entry by itself,
any other text is taken from the directory that holds the link. -/
def link_dest (link text : String) : String := path_join (parent_path link) text

/-- The path `p` names a chain of `n` symbolic links that ends in an entry which
is not a symbolic link. -/
def IsChain (os : OS) : Nat → String → Prop
  | 0, p => ∃ sb, os.lstat p = .ok sb ∧ sb.st_mode &&& S_IFMT ≠ S_IFLNK
  | n + 1, p => ∃ sb text, os.lstat p = .ok sb ∧ sb.st_mode &&& S_IFMT = S_IFLNK ∧
      os.readlink p = .ok text ∧ IsChain os n (link_dest p text)

/-- The lookup of the path `filepath` with the base directory `base_dir` finds
the entry with the answer `sb` under the path `q`: `lstat` finds the path as
it is, or `lstat` fails on it with ENOENT, the base directory is not empty,
the path has no root, and `lstat` finds the base directory joined with the
path. -/
def LooksAt (os : OS) (base_dir filepath q : String) (sb : Stat) : Prop :=
  (os.lstat filepath = .ok sb ∧ q = filepath) ∨
  (os.lstat filepath = .error ENOENT ∧ path_empty base_dir = false ∧
    has_root_path filepath = false ∧ q = path_join base_dir filepath ∧ os.lstat q = .ok sb)

/-- The lookup of the path `filepath` with the base directory `base_dir` fails
with the `errno` value `ec` on the path `p2`: on the path as it is, when the
retry does not apply, or on the base directory joined with the path. -/
def LookupFails (os : OS) (base_dir filepath p2 : String) (ec : Nat) : Prop :=
  (os.lstat filepath = .error ec ∧
    ¬ (ec = ENOENT ∧ path_empty base_dir = false ∧ has_root_path filepath = false) ∧
    p2 = filepath) ∨
  (os.lstat filepath = .error ENOENT ∧ path_empty base_dir = false ∧
    has_root_path filepath = false ∧ p2 = path_join base_dir filepath ∧
    os.lstat p2 = .error ec)

/-- The path `link` names a chain of `n` symbolic links as in `IsChain`, every
link text of the chain is shorter than the read capacity, and the lookup of
every hop (the argument as it is, then for every link its text with the
directory of the link as base directory) finds the entry of the chain: the
same `struct stat` and, for a link, the same link text. -/
def IsTrackedChain (os : OS) : Nat → String → String → String → Prop
  | 0, base_dir, filepath, link => ∃ q sb, LooksAt os base_dir filepath q sb ∧
      os.lstat link = .ok sb ∧ sb.st_mode &&& S_IFMT ≠ S_IFLNK
  | n + 1, base_dir, filepath, link => ∃ q sb text, LooksAt os base_dir filepath q sb ∧
      os.lstat link = .ok sb ∧ sb.st_mode &&& S_IFMT = S_IFLNK ∧
      os.readlink q = .ok text ∧ os.readlink link = .ok text ∧ text.length < buf_size ∧
      IsTrackedChain os n (parent_dir_path q text) text (link_dest link text)

/-- The width of the indentation of a line, the value of `depth` at its call. -/
def Line.depth : Line → Nat
  | .usage => 0
  | .header _ => 0
  | .type_line depth _ _ => depth
  | .ino depth _ => depth
  | .mode depth _ => depth
  | .nlink depth _ => depth
  | .ownership depth _ _ => depth
  | .blksize depth _ => depth
  | .size depth _ => depth
  | .blocks depth _ => depth
  | .status_change depth _ => depth
  | .file_access depth _ => depth
  | .modification depth _ => depth
  | .error depth _ _ _ _ => depth
  | .warn depth _ => depth

/-- The report of a chain of `n` links started at indentation `d`: `n` symlink
type lines, the `k`-th at `d + 2 * k`, then one type line and the ten field
lines of an entry that is not a symbolic link at `d + 2 * n`; no ERROR line,
no WARN line; `n + 1` entries of `stat_filepath`. -/
def chain_report (os : OS) (d n : Nat) (out : List Event) : Prop :=
  (∃ (links : Nat → String) (p : String) (sb : Stat),
    sb.st_mode &&& S_IFMT ≠ S_IFLNK ∧
    lines out =
      (List.range n).map (fun k => Line.type_line (d + 2 * k) "symlink" (links k)) ++
        Line.type_line (d + 2 * n) (typeword sb.st_mode) p :: record os (d + 2 * n) sb) ∧
  (∀ l ∈ lines out, l.is_error = false ∧ l.is_warn = false) ∧
  enter_count out = n + 1

/-- The runs of the arguments in the order of the command line, each after
its header line. -/
def framed_runs : List String → List (List Event) → List Event
  | a :: args, r :: runs => .out (.header a) :: r ++ framed_runs args runs
  | _, _ => []

/-- A label followed by blanks up to the column `w`. -/
def pad_to (w : Nat) (s : String) : String := s ++ String.mk (List.replicate (w - s.length) ' ')

/-- The console record format of the specification, section 6: eleven lines,
each after `depth` blanks, the values starting in column 26; the three time
stamps bring their own line end. -/
def console_record_format (depth : Nat)
    (tw path ino mode nlink uid gid blksize size blocks t_change t_access t_modif : String) :
    List String :=
  [ indent depth ++ (tw ++ ": \"" ++ path ++ "\"" ++ "\n"),
    indent depth ++ (pad_to 26 "I-node number:" ++ ino ++ "\n"),
    indent depth ++ (pad_to 26 "Mode:" ++ mode ++ "\n"),
    indent depth ++ (pad_to 26 "Link count:" ++ nlink ++ "\n"),
    indent depth ++ (pad_to 26 "Ownership:" ++ "UID=" ++ uid ++ "   GID=" ++ gid ++ "\n"),
    indent depth ++ (pad_to 26 "Preferred I/O block size:" ++ blksize ++ " bytes" ++ "\n"),
    indent depth ++ (pad_to 26 "File size:" ++ size ++ " bytes" ++ "\n"),
    indent depth ++ (pad_to 26 "Blocks allocated:" ++ blocks ++ "\n"),
    indent depth ++ (pad_to 26 "Last status change:" ++ t_change),
    indent depth ++ (pad_to 26 "Last file access:" ++ t_access),
    indent depth ++ (pad_to 26 "Last file modification:" ++ t_modif) ]

/-- The type words of the specification for an entry that ends the recursion. -/
def terminal_typewords : List String :=
  ["block device", "character device", "directory", "FIFO/pipe", "regular file", "socket",
    "unknown?"]

/-! ## Concrete file systems -/

def EINVAL : Nat := 22

/-- The messages of `strerror` on Linux for the `errno` values of the examples. -/
def strerror_linux (ec : Nat) : String :=
  if ec = ENOENT then "No such file or directory"
  else if ec = EINVAL then "Invalid argument"
  else if ec = ELOOP then "Too many levels of symbolic links"
  else "Unknown error " ++ toString ec

/-- The text of `ctime` in the time zone UTC for the time stamp 0, which is the
time stamp of every entry of the examples. -/
def ctime_epoch (_t : Int) : String := "Thu Jan  1 00:00:00 1970\n"

/-- An operating system given by a table: a path string, the `struct stat` of
the entry it names and, for a symbolic link, the link text.  A string that is
not in the table names no entry. -/
def table_os (t : List (String × Stat × Option String)) : OS where
  lstat p :=
    match t.lookup p with
    | some e => .ok e.1
    | none => .error ENOENT
  readlink p :=
    match t.lookup p with
    | some (_, some text) => .ok text
    | some (_, none) => .error EINVAL
    | none => .error ENOENT
  strerror := strerror_linux
  ctime := ctime_epoch

def st_link (ino size : Nat) : Stat :=
  { st_ino := ino, st_mode := 0o120777, st_nlink := 1, st_uid := 1000, st_gid := 1000,
    st_blksize := 4096, st_size := size, st_blocks := 0, st_ctime := 0, st_atime := 0,
    st_mtime := 0 }

def st_file (ino : Nat) : Stat :=
  { st_ino := ino, st_mode := 0o100644, st_nlink := 1, st_uid := 1000, st_gid := 1000,
    st_blksize := 4096, st_size := 5, st_blocks := 8, st_ctime := 0, st_atime := 0,
    st_mtime := 0 }

def st_dir (ino : Nat) : Stat :=
  { st_ino := ino, st_mode := 0o040755, st_nlink := 2, st_uid := 1000, st_gid := 1000,
    st_blksize := 4096, st_size := 4096, st_blocks := 8, st_ctime := 0, st_atime := 0,
    st_mtime := 0 }

/-- The working directory holds the directory `a`; `a` holds the regular file
`b` and the link `link -> b`.  There is no `b` in the working directory. -/
def os_retry : OS :=
  table_os
    [ (".", st_dir 10, none), ("./a", st_dir 11, none), ("a", st_dir 11, none),
      ("./a/link", st_link 12 1, some "b"), ("a/link", st_link 12 1, some "b"),
      ("./a/b", st_file 13, none), ("a/b", st_file 13, none) ]

/-- As `os_retry`, and the working directory holds a directory `b` of its own. -/
def os_shadow : OS :=
  table_os
    [ (".", st_dir 10, none), ("./a", st_dir 11, none), ("a", st_dir 11, none),
      ("./a/link", st_link 12 1, some "b"), ("a/link", st_link 12 1, some "b"),
      ("./a/b", st_file 13, none), ("a/b", st_file 13, none),
      ("b", st_dir 14, none), ("./b", st_dir 14, none) ]

/-- The working directory holds the directory `a` and a regular file `b`; `a`
holds the links `link -> b` and `b -> c` and the regular file `c`. -/
def os_shadow_chain : OS :=
  table_os
    [ (".", st_dir 10, none), ("./a", st_dir 11, none), ("a", st_dir 11, none),
      ("./a/link", st_link 12 1, some "b"), ("a/link", st_link 12 1, some "b"),
      ("./a/b", st_link 15 1, some "c"), ("a/b", st_link 15 1, some "c"),
      ("./a/c", st_file 13, none), ("a/c", st_file 13, none),
      ("b", st_file 16, none), ("./b", st_file 16, none) ]

/-- The directory `/d` holds the two links `a -> /d/b` and `b -> /d/a`. -/
def os_cycle : OS :=
  table_os
    [ ("/", st_dir 2, none), ("/d", st_dir 20, none),
      ("/d/a", st_link 21 4, some "/d/b"), ("/d/b", st_link 22 4, some "/d/a") ]

/-- The operating system `os` where `lstat` fails with ELOOP on the listed
paths: the paths that run, before their last component, through a link that
leads back into itself. -/
def with_eloop (loops : List String) (os : OS) : OS :=
  { os with lstat := fun p => if p ∈ loops then .error ELOOP else os.lstat p }

/-- The directory `/d` holds the two links `a -> b` and `b -> a` and the link
`loop -> loop/x`; the working directory is another one and holds none of
these names.  The path `/d/loop/x` runs through the link `loop`. -/
def os_cycle_rel : OS :=
  with_eloop ["/d/loop/x"]
    (table_os
      [ ("/", st_dir 2, none), ("/d", st_dir 20, none),
        ("/d/a", st_link 21 1, some "b"), ("/d/b", st_link 22 1, some "a"),
        ("/d/loop", st_link 23 6, some "loop/x") ])

/-- The working directory holds the regular file `f` and the link `l -> f`. -/
def os_here : OS :=
  table_os
    [ (".", st_dir 10, none), ("./f", st_file 17, none), ("f", st_file 17, none),
      ("./l", st_link 18 1, some "f"), ("l", st_link 18 1, some "f") ]

/-- A link text of 2047 bytes that names the regular file `/ab`: 2045
separators, which count as one, and the file name. -/
def long_text : String := String.mk ('/' :: (List.replicate 2044 '/' ++ ['a', 'b']))

/-- The root directory holds the regular file `ab` and the link `l`, whose
text is `long_text`. -/
def os_long : OS :=
  table_os
    [ ("/", st_dir 2, none), ("/ab", st_file 30, none),
      ("/l", st_link 31 2047, some long_text), (long_text, st_file 30, none) ]

/-! ## Basic facts about the loop and the body -/

theorem lstat_loop_ok (os : OS) (depth i : Nat) (base_dir filepath : String) (sb : Stat)
    (h : os.lstat filepath = .ok sb) :
    lstat_loop os depth (i + 1) base_dir filepath = ([.lstat_call filepath], .broke filepath sb) := by
  simp [lstat_loop, h]

theorem lstat_loop_no_retry (os : OS) (depth i : Nat) (base_dir filepath : String) (ec : Nat)
    (h : os.lstat filepath = .error ec)
    (hn : ¬ (ec = ENOENT ∧ 0 < i ∧ path_empty base_dir = false ∧ has_root_path filepath = false)) :
    lstat_loop os depth (i + 1) base_dir filepath =
      ([.lstat_call filepath, .out (.error depth "lstat" filepath ec (os.strerror ec))],
        .returned) := by
  unfold lstat_loop
  simp only [h]
  by_cases h1 : ec = ENOENT ∧ 0 < i ∧ path_empty base_dir = false
  · by_cases h2 : has_root_path filepath = false
    · exact absurd ⟨h1.1, h1.2.1, h1.2.2, h2⟩ hn
    · simp [h1, h2]
  · simp [h1]

theorem lstat_loop_retry (os : OS) (depth i : Nat) (base_dir filepath : String)
    (h : os.lstat filepath = .error ENOENT) (hb : path_empty base_dir = false)
    (hr : has_root_path filepath = false) :
    lstat_loop os depth (i + 2) base_dir filepath =
      (Event.lstat_call filepath ::
          (lstat_loop os depth (i + 1) (path_join base_dir filepath)
            (path_join base_dir filepath)).1,
        (lstat_loop os depth (i + 1) (path_join base_dir filepath)
            (path_join base_dir filepath)).2) := by
  conv_lhs => unfold lstat_loop
  simp [h, hb, hr]

/-- The second attempt succeeds: the loop is left by `break` with the
rewritten path. -/
theorem lstat_loop_retry_ok (os : OS) (depth : Nat) (base_dir filepath : String) (sb : Stat)
    (h : os.lstat filepath = .error ENOENT) (hb : path_empty base_dir = false)
    (hr : has_root_path filepath = false)
    (h2 : os.lstat (path_join base_dir filepath) = .ok sb) :
    lstat_loop os depth 2 base_dir filepath =
      ([.lstat_call filepath, .lstat_call (path_join base_dir filepath)],
        .broke (path_join base_dir filepath) sb) := by
  rw [lstat_loop_retry os depth 0 base_dir filepath h hb hr, lstat_loop_ok os depth 0 _ _ sb h2]

/-- The second attempt fails: the loop is left by `return`. -/
theorem lstat_loop_retry_error (os : OS) (depth : Nat) (base_dir filepath : String) (ec : Nat)
    (h : os.lstat filepath = .error ENOENT) (hb : path_empty base_dir = false)
    (hr : has_root_path filepath = false)
    (h2 : os.lstat (path_join base_dir filepath) = .error ec) :
    lstat_loop os depth 2 base_dir filepath =
      ([.lstat_call filepath, .lstat_call (path_join base_dir filepath),
          .out (.error depth "lstat" (path_join base_dir filepath) ec (os.strerror ec))],
        .returned) := by
  rw [lstat_loop_retry os depth 0 base_dir filepath h hb hr,
    lstat_loop_no_retry os depth 0 _ _ ec h2 (by simp)]

/-- The loop started with `i = 2` is never left through its condition, so `sb`
is always written before it is read. -/
theorem lstat_loop_not_exhausted (os : OS) (depth : Nat) (base_dir filepath : String) :
    (lstat_loop os depth 2 base_dir filepath).2 ≠ .exhausted := by
  cases h : os.lstat filepath with
  | ok sb => rw [lstat_loop_ok os depth 1 _ _ sb h]; simp
  | error ec =>
    by_cases hc : ec = ENOENT ∧ 0 < 1 ∧ path_empty base_dir = false ∧ has_root_path filepath = false
    · obtain ⟨rfl, -, hb, hr⟩ := hc
      cases h2 : os.lstat (path_join base_dir filepath) with
      | ok sb => rw [lstat_loop_retry_ok os depth _ _ sb h hb hr h2]; simp
      | error ec2 => rw [lstat_loop_retry_error os depth _ _ ec2 h hb hr h2]; simp
    · rw [lstat_loop_no_retry os depth 1 _ _ ec h hc]; simp

theorem stat_filepath_returned (os : OS) (fuel depth : Nat) (base_dir filepath : String)
    (ev : List Event) (h : lstat_loop os depth 2 base_dir filepath = (ev, .returned)) :
    stat_filepath os (fuel + 1) base_dir filepath depth =
      some (.enter base_dir filepath depth :: ev) := by
  simp [stat_filepath, h]

theorem stat_filepath_terminal (os : OS) (fuel depth : Nat) (base_dir filepath p : String)
    (ev : List Event) (sb : Stat)
    (h : lstat_loop os depth 2 base_dir filepath = (ev, .broke p sb))
    (hm : sb.st_mode &&& S_IFMT ≠ S_IFLNK) :
    stat_filepath os (fuel + 1) base_dir filepath depth =
      some (.enter base_dir filepath depth :: ev ++
        .out (.type_line depth (typeword sb.st_mode) p) :: (record os depth sb).map Event.out) := by
  simp [stat_filepath, h, hm]

theorem stat_filepath_readlink_error (os : OS) (fuel depth : Nat) (base_dir filepath p : String)
    (ev : List Event) (sb : Stat) (ec : Nat)
    (h : lstat_loop os depth 2 base_dir filepath = (ev, .broke p sb))
    (hm : sb.st_mode &&& S_IFMT = S_IFLNK)
    (hr : sys_readlink os p buf_size = .error ec) :
    stat_filepath os (fuel + 1) base_dir filepath depth =
      some (.enter base_dir filepath depth :: ev ++
        [.out (.type_line depth "symlink" p), .readlink_call p,
         .out (.error depth "readlink" p ec (os.strerror ec))]) := by
  simp [stat_filepath, h, hm, hr]

theorem stat_filepath_symlink (os : OS) (fuel depth : Nat) (base_dir filepath p : String)
    (ev : List Event) (sb : Stat) (sym_ln : String)
    (h : lstat_loop os depth 2 base_dir filepath = (ev, .broke p sb))
    (hm : sb.st_mode &&& S_IFMT = S_IFLNK)
    (hr : sys_readlink os p buf_size = .ok sym_ln) :
    stat_filepath os (fuel + 1) base_dir filepath depth =
      (stat_filepath os fuel (parent_dir_path p sym_ln) sym_ln (depth + 2)).map
        (fun rest => .enter base_dir filepath depth :: ev ++
          [.out (.type_line depth "symlink" p), .readlink_call p] ++
          (if sym_ln.length = buf_size then [Event.out (.warn depth sym_ln)] else []) ++ rest) := by
  simp only [stat_filepath, h, hm, hr, if_true]
  cases stat_filepath os fuel (parent_dir_path p sym_ln) sym_ln (depth + 2) <;> rfl

/-- The four ways through the loop of lines 54-72 started with `i = 2`. -/
theorem lstat_loop_cases (os : OS) (depth : Nat) (base_dir filepath : String) :
    (∃ sb, os.lstat filepath = .ok sb ∧
      lstat_loop os depth 2 base_dir filepath = ([.lstat_call filepath], .broke filepath sb)) ∨
    (∃ ec, os.lstat filepath = .error ec ∧
      ¬ (ec = ENOENT ∧ path_empty base_dir = false ∧ has_root_path filepath = false) ∧
      lstat_loop os depth 2 base_dir filepath =
        ([.lstat_call filepath, .out (.error depth "lstat" filepath ec (os.strerror ec))],
          .returned)) ∨
    (os.lstat filepath = .error ENOENT ∧ path_empty base_dir = false ∧
      has_root_path filepath = false ∧
      ∃ sb, os.lstat (path_join base_dir filepath) = .ok sb ∧
        lstat_loop os depth 2 base_dir filepath =
          ([.lstat_call filepath, .lstat_call (path_join base_dir filepath)],
            .broke (path_join base_dir filepath) sb)) ∨
    (os.lstat filepath = .error ENOENT ∧ path_empty base_dir = false ∧
      has_root_path filepath = false ∧
      ∃ ec, os.lstat (path_join base_dir filepath) = .error ec ∧
        lstat_loop os depth 2 base_dir filepath =
          ([.lstat_call filepath, .lstat_call (path_join base_dir filepath),
              .out (.error depth "lstat" (path_join base_dir filepath) ec (os.strerror ec))],
            .returned)) := by
  cases h : os.lstat filepath with
  | ok sb => exact Or.inl ⟨sb, rfl, lstat_loop_ok os depth 1 _ _ sb h⟩
  | error ec =>
    by_cases hc : ec = ENOENT ∧ path_empty base_dir = false ∧ has_root_path filepath = false
    · obtain ⟨rfl, hb, hr⟩ := hc
      cases h2 : os.lstat (path_join base_dir filepath) with
      | ok sb =>
        exact Or.inr (Or.inr (Or.inl ⟨rfl, hb, hr, sb, rfl,
          lstat_loop_retry_ok os depth _ _ sb h hb hr h2⟩))
      | error ec2 =>
        exact Or.inr (Or.inr (Or.inr ⟨rfl, hb, hr, ec2, rfl,
          lstat_loop_retry_error os depth _ _ ec2 h hb hr h2⟩))
    · refine Or.inr (Or.inl ⟨ec, rfl, hc, ?_⟩)
      exact lstat_loop_no_retry os depth 1 _ _ ec h (fun hh => hc ⟨hh.1, hh.2.2.1, hh.2.2.2⟩)

/-! ## C4: the attempts of one invocation -/

/-- C4: in one invocation of `stat_filepath` the loop calls `lstat` at most
twice; it calls it a second time exactly when the first call failed with
ENOENT, `base_dir` is not empty and the path has no root, and then on
`base_dir` joined with the path.  Every other failure of `lstat` (another
error, an empty `base_dir`, a rooted path, a failed second attempt) ends the
invocation: its whole run is the entry, the `lstat` calls and one ERROR line,
with no type line, no field line and no nested call. -/
theorem C4_lstat_attempts (os : OS) (depth : Nat) (base_dir filepath : String) :
    (lstat_calls (lstat_loop os depth 2 base_dir filepath).1).length ≤ 2 ∧
    ((lstat_calls (lstat_loop os depth 2 base_dir filepath).1).length = 2 ↔
      (os.lstat filepath = .error ENOENT ∧ path_empty base_dir = false ∧
        has_root_path filepath = false)) ∧
    ((lstat_calls (lstat_loop os depth 2 base_dir filepath).1).length = 2 →
      lstat_calls (lstat_loop os depth 2 base_dir filepath).1 =
        [filepath, path_join base_dir filepath]) ∧
    ((lstat_calls (lstat_loop os depth 2 base_dir filepath).1).length ≠ 2 →
      lstat_calls (lstat_loop os depth 2 base_dir filepath).1 = [filepath]) ∧
    (∀ ec, os.lstat filepath = .error ec →
      ¬ (ec = ENOENT ∧ path_empty base_dir = false ∧ has_root_path filepath = false) →
      ∀ fuel, stat_filepath os (fuel + 1) base_dir filepath depth =
        some [.enter base_dir filepath depth, .lstat_call filepath,
          .out (.error depth "lstat" filepath ec (os.strerror ec))]) ∧
    (∀ ec, os.lstat filepath = .error ENOENT → path_empty base_dir = false →
      has_root_path filepath = false →
      os.lstat (path_join base_dir filepath) = .error ec →
      ∀ fuel, stat_filepath os (fuel + 1) base_dir filepath depth =
        some [.enter base_dir filepath depth, .lstat_call filepath,
          .lstat_call (path_join base_dir filepath),
          .out (.error depth "lstat" (path_join base_dir filepath) ec (os.strerror ec))]) := by
  refine ⟨?_, ?_, ?_, ?_, ?_, ?_⟩
  · rcases lstat_loop_cases os depth base_dir filepath with
      ⟨sb, -, h⟩ | ⟨ec, -, -, h⟩ | ⟨-, -, -, sb, -, h⟩ | ⟨-, -, -, ec, -, h⟩ <;>
      simp [h, lstat_calls]
  · rcases lstat_loop_cases os depth base_dir filepath with
      ⟨sb, h0, h⟩ | ⟨ec, h0, hn, h⟩ | ⟨h0, hb, hr, sb, -, h⟩ | ⟨h0, hb, hr, ec, -, h⟩
    · simp [h, lstat_calls, h0]
    · simp only [h, lstat_calls, List.length_singleton, h0]
      constructor
      · intro hh; omega
      · intro hh
        have : ec = ENOENT := Except.error.inj hh.1
        exact absurd ⟨this, hh.2.1, hh.2.2⟩ hn
    · simp [h, lstat_calls, h0, hb, hr]
    · simp [h, lstat_calls, h0, hb, hr]
  · rcases lstat_loop_cases os depth base_dir filepath with
      ⟨sb, -, h⟩ | ⟨ec, -, -, h⟩ | ⟨-, -, -, sb, -, h⟩ | ⟨-, -, -, ec, -, h⟩ <;>
      simp [h, lstat_calls]
  · rcases lstat_loop_cases os depth base_dir filepath with
      ⟨sb, -, h⟩ | ⟨ec, -, -, h⟩ | ⟨-, -, -, sb, -, h⟩ | ⟨-, -, -, ec, -, h⟩ <;>
      simp [h, lstat_calls]
  · intro ec h hn fuel
    rw [stat_filepath_returned os fuel depth base_dir filepath _
      (lstat_loop_no_retry os depth 1 _ _ ec h (fun hh => hn ⟨hh.1, hh.2.2.1, hh.2.2.2⟩))]
  · intro ec h hb hr h2 fuel
    rw [stat_filepath_returned os fuel depth base_dir filepath _
      (lstat_loop_retry_error os depth _ _ ec h hb hr h2)]

/-! ## C5: a path that is not found -/

theorem lines_map_out (ls : List Line) : lines (ls.map Event.out) = ls := by
  induction ls with
  | nil => rfl
  | cons l ls ih => simp [lines, ih]

theorem lines_enter (b p : String) (d : Nat) (ev : List Event) :
    lines (.enter b p d :: ev) = lines ev := rfl

theorem lines_lstat_call (p : String) (ev : List Event) :
    lines (.lstat_call p :: ev) = lines ev := rfl

theorem lines_readlink_call (p : String) (ev : List Event) :
    lines (.readlink_call p :: ev) = lines ev := rfl

theorem lines_out (l : Line) (ev : List Event) : lines (.out l :: ev) = l :: lines ev := rfl

theorem lines_append (a b : List Event) : lines (a ++ b) = lines a ++ lines b := by
  induction a with
  | nil => rfl
  | cons e a ih => cases e <;> simp [lines, ih]

/-- C5: when `lstat` fails on the path and the fallback does not apply
(`base_dir` is empty, as for every argument of the command line, or the path
is rooted), the run of `stat_filepath` is its entry, one `lstat` call and
one ERROR line; standard error holds exactly that line, which names `lstat`
and quotes the path as it was passed, the `errno` value and its message;
standard output holds nothing. -/
theorem C5_not_found_error (os : OS) (fuel depth : Nat) (base_dir filepath : String) (ec : Nat)
    (h : os.lstat filepath = .error ec)
    (hf : path_empty base_dir = true ∨ has_root_path filepath = true) :
    stat_filepath os (fuel + 1) base_dir filepath depth =
      some [.enter base_dir filepath depth, .lstat_call filepath,
        .out (.error depth "lstat" filepath ec (os.strerror ec))] ∧
    (∀ out, stat_filepath os (fuel + 1) base_dir filepath depth = some out →
      stderr_lines out = [.error depth "lstat" filepath ec (os.strerror ec)] ∧
      stdout_lines out = [] ∧
      (lines out).countP Line.is_error = 1 ∧
      (lines out).countP Line.is_type_line = 0 ∧
      (lines out).countP Line.is_field = 0) ∧
    (Line.error depth "lstat" filepath ec (os.strerror ec)).render =
      indent depth ++ ("ERROR: stat_filepath(): on call to lstat(): \"" ++ (filepath ++
        ("\"; ec=" ++ (dec_nat ec ++ ("; " ++ (os.strerror ec ++ "\n")))))) := by
  have hrun : stat_filepath os (fuel + 1) base_dir filepath depth =
      some [.enter base_dir filepath depth, .lstat_call filepath,
        .out (.error depth "lstat" filepath ec (os.strerror ec))] := by
    apply stat_filepath_returned
    apply lstat_loop_no_retry os depth 1 _ _ ec h
    rintro ⟨-, -, hb, hr⟩
    rcases hf with hf | hf
    · rw [hf] at hb; exact Bool.noConfusion hb
    · rw [hf] at hr; exact Bool.noConfusion hr
  refine ⟨hrun, ?_, ?_⟩
  · intro out hout
    rw [hrun] at hout
    cases hout
    simp [stderr_lines, stdout_lines, lines, Line.to_stderr, Line.is_error, Line.is_type_line,
      Line.is_field]
  · have hlit : "ERROR: stat_filepath(): on call to lstat(): \"" =
        "ERROR: " ++ ("stat_filepath" ++ ("(): on call to " ++ ("lstat" ++ "(): \""))) := by
      decide
    rw [hlit]
    simp only [Line.render, String.append_assoc]

/-- C5 at the path `nope` of `os_retry`, passed as an argument of the command
line. -/
theorem C5_not_found_error_witness :
    stat_filepath os_retry 1 "" "nope" 2 =
      some [.enter "" "nope" 2, .lstat_call "nope",
        .out (.error 2 "lstat" "nope" 2 "No such file or directory")] ∧
    (Line.error 2 "lstat" "nope" 2 "No such file or directory").render =
      "  ERROR: stat_filepath(): on call to lstat(): \"nope\"; ec=2; No such file or directory\n" :=
  ⟨(C5_not_found_error os_retry 0 2 "" "nope" 2 rfl (Or.inl rfl)).1, by decide⟩

/-! ## C3: the retry against the base directory -/

/-- C3: a call with a path without root and a `base_dir` that is not empty,
where `lstat` of the path fails with ENOENT and `lstat` of `base_dir` joined
with the path finds an entry that is not a symbolic link: the run is the
entry, the two `lstat` calls, one type line naming the joined path and the
ten field lines of that entry, all at `depth`; there is no ERROR line. -/
theorem C3_retry_record (os : OS) (fuel depth : Nat) (base_dir filepath : String) (sb : Stat)
    (hr : has_root_path filepath = false) (hb : path_empty base_dir = false)
    (h : os.lstat filepath = .error ENOENT)
    (h2 : os.lstat (path_join base_dir filepath) = .ok sb)
    (hm : sb.st_mode &&& S_IFMT ≠ S_IFLNK) :
    stat_filepath os (fuel + 1) base_dir filepath depth =
      some (.enter base_dir filepath depth :: .lstat_call filepath ::
        .lstat_call (path_join base_dir filepath) ::
        .out (.type_line depth (typeword sb.st_mode) (path_join base_dir filepath)) ::
        (record os depth sb).map Event.out) ∧
    (∀ out, stat_filepath os (fuel + 1) base_dir filepath depth = some out →
      lines out =
        .type_line depth (typeword sb.st_mode) (path_join base_dir filepath) ::
          record os depth sb ∧
      (lines out).countP Line.is_error = 0 ∧
      (lines out).countP Line.is_type_line = 1 ∧
      (lines out).countP Line.is_field = 10) := by
  have hrun := stat_filepath_terminal os fuel depth base_dir filepath _ _ sb
    (lstat_loop_retry_ok os depth base_dir filepath sb h hb hr h2) hm
  refine ⟨by simpa using hrun, ?_⟩
  intro out hout
  rw [hrun] at hout
  cases hout
  simp [lines, lines_map_out, lines_append, record, Line.is_error, Line.is_type_line,
    Line.is_field]

/-- C3 at the second hop of `./a/link -> b` in `os_retry`: the call with
`base_dir = ./a` and the path `b`, which exists under `./a` only. -/
theorem C3_retry_record_witness :
    stat_filepath os_retry 1 "./a" "b" 4 =
      some (.enter "./a" "b" 4 :: .lstat_call "b" :: .lstat_call "./a/b" ::
        .out (.type_line 4 "regular file" "./a/b") ::
        (record os_retry 4 (st_file 13)).map Event.out) :=
  (C3_retry_record os_retry 0 4 "./a" "b" (st_file 13) rfl rfl rfl rfl (by decide)).1

/-! ## C9: the read of the link text -/

/-- A loop left by `break` has printed nothing, has entered nothing, and its
`sb` is the answer of `lstat` for its final path. -/
theorem lstat_loop_broke (os : OS) (depth : Nat) (base_dir filepath p : String)
    (ev : List Event) (sb : Stat)
    (h : lstat_loop os depth 2 base_dir filepath = (ev, .broke p sb)) :
    lines ev = [] ∧ enter_count ev = 0 ∧ os.lstat p = .ok sb := by
  rcases lstat_loop_cases os depth base_dir filepath with
    ⟨sb1, h0, h1⟩ | ⟨ec, -, -, h1⟩ | ⟨-, -, -, sb1, h0, h1⟩ | ⟨-, -, -, ec, -, h1⟩
  · rw [h1] at h
    simp only [Prod.mk.injEq, LoopExit.broke.injEq] at h
    obtain ⟨rfl, rfl, rfl⟩ := h
    exact ⟨rfl, rfl, h0⟩
  · rw [h1] at h; simp at h
  · rw [h1] at h
    simp only [Prod.mk.injEq, LoopExit.broke.injEq] at h
    obtain ⟨rfl, rfl, rfl⟩ := h
    exact ⟨rfl, rfl, h0⟩
  · rw [h1] at h; simp at h

theorem sys_readlink_length (os : OS) (p sym_ln : String) (n : Nat)
    (h : sys_readlink os p n = .ok sym_ln) : sym_ln.length ≤ n := by
  unfold sys_readlink at h
  cases hr : os.readlink p with
  | error ec => rw [hr] at h; simp at h
  | ok text =>
    rw [hr] at h
    simp only [Except.ok.injEq] at h
    subst h
    exact List.length_take_le _ _

/-- C9: after a successful `readlink` that placed the text `sym_ln` of `n` bytes
in the buffer, `n` is at most the read capacity 2047, so the index `n` of the
terminator lies inside the buffer of 2048 bytes; the invocation prints its
symlink type line and then the WARN line exactly when `n = 2047`; in both
cases the nested call is made on the `n` bytes read at `depth + 2`, and its
run follows. -/
theorem C9_truncation_warning (os : OS) (fuel depth : Nat) (base_dir filepath p : String)
    (ev : List Event) (sb : Stat) (sym_ln : String)
    (h : lstat_loop os depth 2 base_dir filepath = (ev, .broke p sb))
    (hm : sb.st_mode &&& S_IFMT = S_IFLNK)
    (hr : sys_readlink os p buf_size = .ok sym_ln) :
    buf_size = 2047 ∧ full_buf_size = 2048 ∧ sym_ln.length < full_buf_size ∧
    (∀ text, os.readlink p = .ok text → sym_ln = String.mk (text.data.take 2047)) ∧
    ∃ own : List Event,
      stat_filepath os (fuel + 1) base_dir filepath depth =
        (stat_filepath os fuel (parent_dir_path p sym_ln) sym_ln (depth + 2)).map
          (fun rest => own ++ rest) ∧
      lines own = Line.type_line depth "symlink" p ::
        (if sym_ln.length = 2047 then [Line.warn depth sym_ln] else []) ∧
      (Line.warn depth sym_ln ∈ lines own ↔ sym_ln.length = 2047) ∧
      (∀ l ∈ lines own, l.is_warn = true → sym_ln.length = 2047) := by
  have hlen := sys_readlink_length os p sym_ln buf_size hr
  have hbuf : buf_size = 2047 := by decide
  have hfull : full_buf_size = 2048 := by decide
  refine ⟨hbuf, hfull, by omega, ?_, ?_⟩
  · intro text ht
    unfold sys_readlink at hr
    rw [ht] at hr
    simp only [Except.ok.injEq] at hr
    rw [← hr, hbuf]
  · refine ⟨.enter base_dir filepath depth :: ev ++
        [.out (.type_line depth "symlink" p), .readlink_call p] ++
        (if sym_ln.length = buf_size then [Event.out (.warn depth sym_ln)] else []),
      stat_filepath_symlink os fuel depth base_dir filepath p ev sb sym_ln h hm hr, ?_⟩
    have hev := (lstat_loop_broke os depth base_dir filepath p ev sb h).1
    have hl0 : lines (.enter base_dir filepath depth :: ev ++
        [.out (.type_line depth "symlink" p), .readlink_call p]) =
        [Line.type_line depth "symlink" p] := by
      simp [lines, lines_append, hev]
    rw [hbuf, lines_append, hl0]
    by_cases hn : sym_ln.length = 2047
    · rw [if_pos hn, if_pos hn]
      exact ⟨rfl, ⟨fun _ => hn, fun _ => by simp [lines]⟩, fun _ _ _ => hn⟩
    · rw [if_neg hn, if_neg hn]
      refine ⟨rfl, ⟨fun hw => ?_, fun hw => absurd hw hn⟩, fun l hl hw => ?_⟩
      · simp [lines] at hw
      · simp only [lines, List.append_nil, List.mem_singleton] at hl
        subst hl
        simp [Line.is_warn] at hw

/-- C9 at the link `./a/link` of `os_retry`, whose text `b` has one byte. -/
theorem C9_truncation_warning_witness :
    buf_size = 2047 ∧ full_buf_size = 2048 ∧ ("b" : String).length < full_buf_size ∧
    (∀ text, os_retry.readlink "./a/link" = .ok text →
      "b" = String.mk (text.data.take 2047)) ∧
    ∃ own : List Event,
      stat_filepath os_retry 2 "" "./a/link" 2 =
        (stat_filepath os_retry 1 (parent_dir_path "./a/link" "b") "b" (2 + 2)).map
          (fun rest => own ++ rest) ∧
      lines own = Line.type_line 2 "symlink" "./a/link" ::
        (if ("b" : String).length = 2047 then [Line.warn 2 "b"] else []) ∧
      (Line.warn 2 "b" ∈ lines own ↔ ("b" : String).length = 2047) ∧
      (∀ l ∈ lines own, l.is_warn = true → ("b" : String).length = 2047) :=
  C9_truncation_warning os_retry 1 2 "" "./a/link" "./a/link" [.lstat_call "./a/link"]
    (st_link 12 1) "b" rfl (by decide) rfl

/-! ## One invocation, read from its run -/

/-- The four ways through one invocation that returns. -/
theorem stat_filepath_frame (os : OS) (fuel depth : Nat) (base_dir filepath : String)
    (out : List Event) (h : stat_filepath os (fuel + 1) base_dir filepath depth = some out) :
    (∃ q ec, lines out = [.error depth "lstat" q ec (os.strerror ec)] ∧ enter_count out = 1) ∨
    (∃ q sb, sb.st_mode &&& S_IFMT ≠ S_IFLNK ∧ os.lstat q = .ok sb ∧
      lines out = .type_line depth (typeword sb.st_mode) q :: record os depth sb ∧
      enter_count out = 1) ∨
    (∃ q ec, lines out =
        [.type_line depth "symlink" q, .error depth "readlink" q ec (os.strerror ec)] ∧
      enter_count out = 1) ∨
    (∃ q sym_ln rest,
      stat_filepath os fuel (parent_dir_path q sym_ln) sym_ln (depth + 2) = some rest ∧
      lines out = .type_line depth "symlink" q ::
        ((if sym_ln.length = buf_size then [Line.warn depth sym_ln] else []) ++ lines rest) ∧
      enter_count out = 1 + enter_count rest) := by
  cases hl : lstat_loop os depth 2 base_dir filepath with
  | mk ev ex =>
    cases ex with
    | exhausted =>
      have := lstat_loop_not_exhausted os depth base_dir filepath
      rw [hl] at this
      exact absurd rfl this
    | returned =>
      rw [stat_filepath_returned os fuel depth base_dir filepath ev hl] at h
      cases h
      rcases lstat_loop_cases os depth base_dir filepath with
        ⟨sb1, -, h1⟩ | ⟨ec, -, -, h1⟩ | ⟨-, -, -, sb1, -, h1⟩ | ⟨-, -, -, ec, -, h1⟩
      · rw [h1] at hl; simp at hl
      · rw [h1] at hl
        simp only [Prod.mk.injEq, and_true] at hl
        subst hl
        exact Or.inl ⟨filepath, ec, rfl, rfl⟩
      · rw [h1] at hl; simp at hl
      · rw [h1] at hl
        simp only [Prod.mk.injEq, and_true] at hl
        subst hl
        exact Or.inl ⟨_, ec, rfl, rfl⟩
    | broke q sb =>
      obtain ⟨hev, hen, hq⟩ := lstat_loop_broke os depth base_dir filepath q ev sb hl
      have hcount : ∀ tl : List Event,
          enter_count (.enter base_dir filepath depth :: ev ++ tl) = 1 + enter_count tl := by
        intro tl
        unfold enter_count at hen ⊢
        simp [List.countP_cons, List.countP_append, hen, Event.is_enter]
        omega
      by_cases hm : sb.st_mode &&& S_IFMT = S_IFLNK
      · cases hr : sys_readlink os q buf_size with
        | error ec =>
          rw [stat_filepath_readlink_error os fuel depth base_dir filepath q ev sb ec hl hm hr]
            at h
          cases h
          refine Or.inr (Or.inr (Or.inl ⟨q, ec, ?_, ?_⟩))
          · simp [lines, lines_append, hev]
          · rw [hcount]; rfl
        | ok sym_ln =>
          rw [stat_filepath_symlink os fuel depth base_dir filepath q ev sb sym_ln hl hm hr] at h
          cases hrest : stat_filepath os fuel (parent_dir_path q sym_ln) sym_ln (depth + 2) with
          | none => rw [hrest] at h; simp at h
          | some rest =>
            rw [hrest] at h
            simp only [Option.map_some', Option.some.injEq] at h
            subst h
            refine Or.inr (Or.inr (Or.inr ⟨q, sym_ln, rest, hrest, ?_, ?_⟩))
            · by_cases hn : sym_ln.length = buf_size <;>
                simp [lines, lines_append, hev, hn]
            · have := hcount ([.out (.type_line depth "symlink" q), .readlink_call q] ++
                (if sym_ln.length = buf_size then [Event.out (.warn depth sym_ln)] else []) ++
                rest)
              simp only [List.cons_append, List.append_assoc] at this ⊢
              rw [this]
              by_cases hn : sym_ln.length = buf_size <;>
                simp [enter_count, List.countP_cons, Event.is_enter, hn]
      · rw [stat_filepath_terminal os fuel depth base_dir filepath q ev sb hl hm] at h
        cases h
        refine Or.inr (Or.inl ⟨q, sb, hm, hq, ?_, ?_⟩)
        · rw [List.cons_append, lines_enter, lines_append, hev, List.nil_append, lines_out,
            lines_map_out]
        · rw [hcount]
          simp [enter_count, List.countP_cons, Event.is_enter, record]

/-! ## Fuel -/

/-- A call that has returned within `fuel` hops returns the same run within
`fuel + 1` hops. -/
theorem stat_filepath_fuel_succ (os : OS) (fuel : Nat) :
    ∀ (base_dir filepath : String) (depth : Nat) (out : List Event),
      stat_filepath os fuel base_dir filepath depth = some out →
      stat_filepath os (fuel + 1) base_dir filepath depth = some out := by
  induction fuel with
  | zero => intro base_dir filepath depth out h; simp [stat_filepath] at h
  | succ fuel ih =>
    intro base_dir filepath depth out h
    cases hl : lstat_loop os depth 2 base_dir filepath with
    | mk ev ex =>
      cases ex with
      | exhausted => simp [stat_filepath, hl] at h
      | returned =>
        rw [stat_filepath_returned os fuel depth base_dir filepath ev hl] at h
        rw [stat_filepath_returned os (fuel + 1) depth base_dir filepath ev hl]
        exact h
      | broke q sb =>
        by_cases hm : sb.st_mode &&& S_IFMT = S_IFLNK
        · cases hr : sys_readlink os q buf_size with
          | error ec =>
            rw [stat_filepath_readlink_error os fuel depth base_dir filepath q ev sb ec hl hm hr]
              at h
            rw [stat_filepath_readlink_error os (fuel + 1) depth base_dir filepath q ev sb ec hl
              hm hr]
            exact h
          | ok sym_ln =>
            rw [stat_filepath_symlink os fuel depth base_dir filepath q ev sb sym_ln hl hm hr]
              at h
            rw [stat_filepath_symlink os (fuel + 1) depth base_dir filepath q ev sb sym_ln hl hm
              hr]
            cases hrest : stat_filepath os fuel (parent_dir_path q sym_ln) sym_ln (depth + 2) with
            | none => rw [hrest] at h; simp at h
            | some rest => rw [hrest] at h; rw [ih _ _ _ rest hrest]; exact h
        · rw [stat_filepath_terminal os fuel depth base_dir filepath q ev sb hl hm] at h
          rw [stat_filepath_terminal os (fuel + 1) depth base_dir filepath q ev sb hl hm]
          exact h

theorem stat_filepath_fuel_le (os : OS) (fuel fuel2 : Nat) (hle : fuel ≤ fuel2)
    (base_dir filepath : String) (depth : Nat) (out : List Event)
    (h : stat_filepath os fuel base_dir filepath depth = some out) :
    stat_filepath os fuel2 base_dir filepath depth = some out := by
  induction hle with
  | refl => exact h
  | step _ ih => exact stat_filepath_fuel_succ os _ _ _ _ _ ih

/-- The run of a call does not depend on the fuel that was enough for it. -/
theorem stat_filepath_fuel_unique (os : OS) (fuel fuel2 : Nat)
    (base_dir filepath : String) (depth : Nat) (out out2 : List Event)
    (h : stat_filepath os fuel base_dir filepath depth = some out)
    (h2 : stat_filepath os fuel2 base_dir filepath depth = some out2) : out = out2 := by
  rcases Nat.le_total fuel fuel2 with hle | hle
  · have := stat_filepath_fuel_le os fuel fuel2 hle _ _ _ _ h
    rw [this] at h2
    exact Option.some.inj h2
  · have := stat_filepath_fuel_le os fuel2 fuel hle _ _ _ _ h2
    rw [this] at h
    exact (Option.some.inj h).symm

/-! ## C6: one record or one ERROR line -/

theorem record_count_field (os : OS) (d : Nat) (sb : Stat) :
    (record os d sb).countP Line.is_field = 10 ∧ (record os d sb).countP Line.is_error = 0 := by
  simp [record, Line.is_field, Line.is_error]

/-- C6: the lines of a call of `stat_filepath` that returns, nested calls
included, hold either no ERROR line and exactly ten field lines, which are
the complete record of one entry at the end of the run, or exactly one ERROR
line and no field line at all. -/
theorem C6_record_xor_error (os : OS) (fuel : Nat) :
    ∀ (base_dir filepath : String) (depth : Nat) (out : List Event),
      stat_filepath os fuel base_dir filepath depth = some out →
      ((lines out).countP Line.is_error = 0 ∧ (lines out).countP Line.is_field = 10 ∧
        ∃ pre d sb, lines out = pre ++ record os d sb ∧ pre.countP Line.is_field = 0) ∨
      ((lines out).countP Line.is_error = 1 ∧ (lines out).countP Line.is_field = 0) := by
  induction fuel with
  | zero => intro base_dir filepath depth out h; simp [stat_filepath] at h
  | succ fuel ih =>
    intro base_dir filepath depth out h
    rcases stat_filepath_frame os fuel depth base_dir filepath out h with
      ⟨q, ec, hl, -⟩ | ⟨q, sb, -, -, hl, -⟩ | ⟨q, ec, hl, -⟩ | ⟨q, sym_ln, rest, hrest, hl, -⟩
    · right
      rw [hl]
      simp [Line.is_error, Line.is_field]
    · left
      obtain ⟨hf, he⟩ := record_count_field os depth sb
      rw [hl]
      refine ⟨?_, ?_, [.type_line depth (typeword sb.st_mode) q], depth, sb, rfl, ?_⟩
      · simp [List.countP_cons, he, Line.is_error]
      · simp [List.countP_cons, hf, Line.is_field]
      · simp [Line.is_field]
    · right
      rw [hl]
      simp [Line.is_error, Line.is_field]
    · have hpre : ∀ tl : List Line,
          (Line.type_line depth "symlink" q ::
            ((if sym_ln.length = buf_size then [Line.warn depth sym_ln] else []) ++ tl)).countP
              Line.is_error = tl.countP Line.is_error ∧
          (Line.type_line depth "symlink" q ::
            ((if sym_ln.length = buf_size then [Line.warn depth sym_ln] else []) ++ tl)).countP
              Line.is_field = tl.countP Line.is_field := by
        intro tl
        by_cases hn : sym_ln.length = buf_size <;>
          simp [hn, List.countP_cons, Line.is_error, Line.is_field]
      rcases ih _ _ _ rest hrest with ⟨he, hf, pre, d, sb, hp, hpf⟩ | ⟨he, hf⟩
      · left
        rw [hl]
        refine ⟨by rw [(hpre _).1, he], by rw [(hpre _).2, hf],
          Line.type_line depth "symlink" q ::
            ((if sym_ln.length = buf_size then [Line.warn depth sym_ln] else []) ++ pre),
          d, sb, ?_, ?_⟩
        · rw [hp]; simp
        · rw [(hpre pre).2, hpf]
      · right
        rw [hl]
        exact ⟨by rw [(hpre _).1, he], by rw [(hpre _).2, hf]⟩

/-- C6 at the two arguments `./a/link` (a record) and `nope` (an ERROR line) of
`os_retry`. -/
theorem C6_record_xor_error_witness :
    (stat_filepath os_retry 2 "" "./a/link" 2).isSome = true ∧
    (∀ out, stat_filepath os_retry 2 "" "./a/link" 2 = some out →
      ((lines out).countP Line.is_error = 0 ∧ (lines out).countP Line.is_field = 10 ∧
        ∃ pre d sb, lines out = pre ++ record os_retry d sb ∧ pre.countP Line.is_field = 0) ∨
      ((lines out).countP Line.is_error = 1 ∧ (lines out).countP Line.is_field = 0)) :=
  ⟨by decide, fun out h => C6_record_xor_error os_retry 2 "" "./a/link" 2 out h⟩

/-! ## C8: the text of the record -/

theorem typeword_mem (m : Nat) : typeword m ∈ terminal_typewords := by
  unfold typeword terminal_typewords
  split_ifs <;> simp

/-- The text of the eleven lines of a terminal record is the console record
format, with the Mode value followed by the word `(octal)` in brackets. -/
theorem render_record (os : OS) (depth : Nat) (p : String) (sb : Stat) :
    (Line.type_line depth (typeword sb.st_mode) p :: record os depth sb).map Line.render =
      console_record_format depth (typeword sb.st_mode) p
        (dec (to_long sb.st_ino)) (oct sb.st_mode ++ " (octal)") (dec (to_long sb.st_nlink))
        (dec (to_long sb.st_uid)) (dec (to_long sb.st_gid)) (dec sb.st_blksize)
        (dec sb.st_size) (dec sb.st_blocks)
        (os.ctime sb.st_ctime) (os.ctime sb.st_atime) (os.ctime sb.st_mtime) := by
  have h1 : pad_to 26 "I-node number:" = "I-node number:            " := by decide
  have h2 : pad_to 26 "Mode:" = "Mode:                     " := by decide
  have h3 : pad_to 26 "Link count:" = "Link count:               " := by decide
  have h4 : pad_to 26 "Ownership:" ++ "UID=" = "Ownership:                UID=" := by decide
  have h5 : pad_to 26 "Preferred I/O block size:" = "Preferred I/O block size: " := by decide
  have h6 : pad_to 26 "File size:" = "File size:                " := by decide
  have h7 : pad_to 26 "Blocks allocated:" = "Blocks allocated:         " := by decide
  have h8 : pad_to 26 "Last status change:" = "Last status change:       " := by decide
  have h9 : pad_to 26 "Last file access:" = "Last file access:         " := by decide
  have h10 : pad_to 26 "Last file modification:" = "Last file modification:   " := by decide
  have e1 : " (octal)" ++ "\n" = " (octal)\n" := by decide
  have e2 : " bytes" ++ "\n" = " bytes\n" := by decide
  have e3 : "\"" ++ "\n" = "\"\n" := by decide
  simp only [console_record_format, record, List.map, Line.render, h1, h2, h3, h4, h5, h6, h7,
    h8, h9, h10, String.append_assoc, e1, e2, e3]

/-- C8 (amended): for an entry that is not a symbolic link, at every depth, the
lines of the invocation are the type line and the ten field lines, and their
text is the console record format in the stated order, each line after
exactly `depth` blanks, where the Mode line is the label, the padding, the
mode in octal and then the word `(octal)` in brackets; the type word is one
of the seven terminal type words and follows from the file-type bits. -/
theorem C8_record_text (os : OS) (fuel depth : Nat) (base_dir filepath p : String)
    (ev : List Event) (sb : Stat)
    (h : lstat_loop os depth 2 base_dir filepath = (ev, .broke p sb))
    (hm : sb.st_mode &&& S_IFMT ≠ S_IFLNK) :
    ∃ out, stat_filepath os (fuel + 1) base_dir filepath depth = some out ∧
      lines out = Line.type_line depth (typeword sb.st_mode) p :: record os depth sb ∧
      (lines out).map Line.render =
        console_record_format depth (typeword sb.st_mode) p
          (dec (to_long sb.st_ino)) (oct sb.st_mode ++ " (octal)") (dec (to_long sb.st_nlink))
          (dec (to_long sb.st_uid)) (dec (to_long sb.st_gid)) (dec sb.st_blksize)
          (dec sb.st_size) (dec sb.st_blocks)
          (os.ctime sb.st_ctime) (os.ctime sb.st_atime) (os.ctime sb.st_mtime) ∧
      (indent depth).data = List.replicate depth ' ' ∧
      typeword sb.st_mode ∈ terminal_typewords ∧
      (sb.st_mode &&& S_IFMT = S_IFBLK → typeword sb.st_mode = "block device") ∧
      (sb.st_mode &&& S_IFMT = S_IFCHR → typeword sb.st_mode = "character device") ∧
      (sb.st_mode &&& S_IFMT = S_IFDIR → typeword sb.st_mode = "directory") ∧
      (sb.st_mode &&& S_IFMT = S_IFIFO → typeword sb.st_mode = "FIFO/pipe") ∧
      (sb.st_mode &&& S_IFMT = S_IFREG → typeword sb.st_mode = "regular file") ∧
      (sb.st_mode &&& S_IFMT = S_IFSOCK → typeword sb.st_mode = "socket") ∧
      (sb.st_mode &&& S_IFMT ∉ [S_IFBLK, S_IFCHR, S_IFDIR, S_IFIFO, S_IFREG, S_IFSOCK] →
        typeword sb.st_mode = "unknown?") := by
  have hev := (lstat_loop_broke os depth base_dir filepath p ev sb h).1
  have hlines : lines (.enter base_dir filepath depth :: ev ++
      .out (.type_line depth (typeword sb.st_mode) p) :: (record os depth sb).map Event.out) =
      Line.type_line depth (typeword sb.st_mode) p :: record os depth sb := by
    rw [List.cons_append, lines_enter, lines_append, hev, List.nil_append, lines_out,
      lines_map_out]
  refine ⟨_, stat_filepath_terminal os fuel depth base_dir filepath p ev sb h hm, hlines, ?_,
    rfl, typeword_mem _, ?_, ?_, ?_, ?_, ?_, ?_, ?_⟩
  · rw [hlines]; exact render_record os depth p sb
  · intro hb; simp [typeword, hb]
  · intro hb; simp [typeword, hb, S_IFCHR, S_IFBLK]
  · intro hb; simp [typeword, hb, S_IFCHR, S_IFBLK, S_IFDIR]
  · intro hb; simp [typeword, hb, S_IFCHR, S_IFBLK, S_IFDIR, S_IFIFO]
  · intro hb; simp [typeword, hb, S_IFCHR, S_IFBLK, S_IFDIR, S_IFIFO, S_IFREG]
  · intro hb; simp [typeword, hb, S_IFCHR, S_IFBLK, S_IFDIR, S_IFIFO, S_IFREG, S_IFSOCK]
  · intro hb
    simp only [List.mem_cons, List.mem_singleton, List.not_mem_nil, or_false, not_or] at hb
    simp [typeword, hb]

/-- C8 (amended) at the regular file `./a/b` of `os_retry`. -/
theorem C8_record_text_witness :
    ∃ out, stat_filepath os_retry 1 "" "./a/b" 2 = some out ∧
      (lines out).map Line.render =
        [ "  regular file: \"./a/b\"\n",
          "  I-node number:            13\n",
          "  Mode:                     100644 (octal)\n",
          "  Link count:               1\n",
          "  Ownership:                UID=1000   GID=1000\n",
          "  Preferred I/O block size: 4096 bytes\n",
          "  File size:                5 bytes\n",
          "  Blocks allocated:         8\n",
          "  Last status change:       Thu Jan  1 00:00:00 1970\n",
          "  Last file access:         Thu Jan  1 00:00:00 1970\n",
          "  Last file modification:   Thu Jan  1 00:00:00 1970\n" ] := by
  obtain ⟨out, h1, _, h3, _⟩ :=
    C8_record_text os_retry 0 2 "" "./a/b" "./a/b" [.lstat_call "./a/b"] (st_file 13) rfl
      (by decide)
  refine ⟨out, h1, ?_⟩
  rw [h3]
  decide

/-- C8 as stated fails at the regular file `./a/b` of `os_retry`: the text of the
record is not the console record format with the bare octal mode as the
value of the Mode line; the text of that line goes on after the octal
digits. -/
theorem C8_counterexample :
    ∃ out, stat_filepath os_retry 1 "" "./a/b" 2 = some out ∧
      (lines out).map Line.render ≠
        console_record_format 2 "regular file" "./a/b"
          (dec (to_long (st_file 13).st_ino)) (oct (st_file 13).st_mode)
          (dec (to_long (st_file 13).st_nlink))
          (dec (to_long (st_file 13).st_uid)) (dec (to_long (st_file 13).st_gid))
          (dec (st_file 13).st_blksize) (dec (st_file 13).st_size) (dec (st_file 13).st_blocks)
          (os_retry.ctime (st_file 13).st_ctime) (os_retry.ctime (st_file 13).st_atime)
          (os_retry.ctime (st_file 13).st_mtime) ∧
      ((lines out).map Line.render).get? 2 =
        some "  Mode:                     100644 (octal)\n" ∧
      "  Mode:                     100644 (octal)\n" ≠
        indent 2 ++ ("Mode:" ++ "                     " ++ oct (st_file 13).st_mode ++ "\n") := by
  refine ⟨_, rfl, ?_, ?_, ?_⟩ <;> decide

/-! ## C2: where the next hop looks first -/

/-- C2 fails on `os_shadow`: the link `./a/link` has a parent directory and
the text `b` without root; the entry it leads to is the regular file
`./a/b`, but the next hop is left by `break` after its first `lstat` with the
path `b` and the `struct stat` of the directory `b` of the working directory,
and the run of the argument `./a/link` ends in the type line and the record
of that directory. -/
theorem C2_next_hop_finds_working_directory_entry :
    has_parent_path "./a/link" = true ∧ has_root_path "b" = false ∧
    os_shadow.lstat "./a/link" = .ok (st_link 12 1) ∧
    os_shadow.readlink "./a/link" = .ok "b" ∧
    path_join (parent_path "./a/link") "b" = "./a/b" ∧
    os_shadow.lstat "./a/b" = .ok (st_file 13) ∧
    lstat_loop os_shadow 4 2 (parent_dir_path "./a/link" "b") "b" =
      ([.lstat_call "b"], .broke "b" (st_dir 14)) ∧
    stat_filepath os_shadow 2 "" "./a/link" 2 =
      some ([.enter "" "./a/link" 2, .lstat_call "./a/link",
          .out (.type_line 2 "symlink" "./a/link"), .readlink_call "./a/link",
          .enter "./a" "b" 4, .lstat_call "b", .out (.type_line 4 "directory" "b")] ++
        (record os_shadow 4 (st_dir 14)).map Event.out) := by
  refine ⟨by decide, by decide, rfl, rfl, by decide, rfl, by decide, by decide⟩

/-- The same lookup order on `os_shadow_chain`: `./a/link` names a chain of two
links that ends in the regular file `./a/c`, and the run of the argument
`./a/link` holds one symlink type line and, at depth 4, the record of the
regular file `b` of the working directory, after two entries of
`stat_filepath`. -/
theorem shadowed_chain_run :
    IsChain os_shadow_chain 2 "./a/link" ∧
    stat_filepath os_shadow_chain 3 "" "./a/link" 2 =
      some ([.enter "" "./a/link" 2, .lstat_call "./a/link",
          .out (.type_line 2 "symlink" "./a/link"), .readlink_call "./a/link",
          .enter "./a" "b" 4, .lstat_call "b", .out (.type_line 4 "regular file" "b")] ++
        (record os_shadow_chain 4 (st_file 16)).map Event.out) := by
  refine ⟨⟨st_link 12 1, "b", rfl, by decide, rfl, st_link 15 1, "c", rfl, by decide, rfl,
    st_file 13, rfl, by decide⟩, by decide⟩

/-! ## Lookups and hops -/

/-- A lookup that finds an entry is a loop left by `break`. -/
theorem looks_at_loop (os : OS) (base_dir filepath q : String) (sb : Stat)
    (h : LooksAt os base_dir filepath q sb) (depth : Nat) :
    ∃ ev, lstat_loop os depth 2 base_dir filepath = (ev, .broke q sb) := by
  rcases h with ⟨h1, hq⟩ | ⟨h1, hb, hr, hq, h2⟩
  · rw [hq]
    exact ⟨_, lstat_loop_ok os depth 1 base_dir filepath sb h1⟩
  · rw [hq] at h2 ⊢
    exact ⟨_, lstat_loop_retry_ok os depth base_dir filepath sb h1 hb hr h2⟩

/-- A lookup that fails is a loop left by `return` after one ERROR line. -/
theorem lookup_fails_run (os : OS) (fuel depth : Nat) (base_dir filepath p2 : String) (ec : Nat)
    (h : LookupFails os base_dir filepath p2 ec) :
    ∃ rest, stat_filepath os (fuel + 1) base_dir filepath depth = some rest ∧
      lines rest = [.error depth "lstat" p2 ec (os.strerror ec)] ∧ enter_count rest = 1 := by
  rcases h with ⟨h1, hn, hp⟩ | ⟨h1, hb, hr, hp, h2⟩
  · rw [hp]
    exact ⟨_, stat_filepath_returned os fuel depth base_dir filepath _
      (lstat_loop_no_retry os depth 1 _ _ ec h1 (fun hh => hn ⟨hh.1, hh.2.2.1, hh.2.2.2⟩)),
      rfl, rfl⟩
  · rw [hp] at h2 ⊢
    exact ⟨_, stat_filepath_returned os fuel depth base_dir filepath _
      (lstat_loop_retry_error os depth _ _ ec h1 hb hr h2), rfl, rfl⟩

/-- A link text that fits the read capacity is read in full. -/
theorem sys_readlink_fits (os : OS) (p text : String) (h : os.readlink p = .ok text)
    (hlen : text.length ≤ buf_size) : sys_readlink os p buf_size = .ok text := by
  unfold sys_readlink
  rw [h]
  have : List.take buf_size text.data = text.data := List.take_of_length_le hlen
  simp [this]

/-- One hop over a symbolic link whose nested call returns. -/
theorem stat_filepath_symlink_run (os : OS) (fuel depth : Nat) (base_dir filepath p : String)
    (ev : List Event) (sb : Stat) (sym_ln : String) (rest : List Event)
    (h : lstat_loop os depth 2 base_dir filepath = (ev, .broke p sb))
    (hm : sb.st_mode &&& S_IFMT = S_IFLNK)
    (hr : sys_readlink os p buf_size = .ok sym_ln)
    (hrest : stat_filepath os fuel (parent_dir_path p sym_ln) sym_ln (depth + 2) = some rest) :
    ∃ out, stat_filepath os (fuel + 1) base_dir filepath depth = some out ∧
      lines out = .type_line depth "symlink" p ::
        ((if sym_ln.length = buf_size then [Line.warn depth sym_ln] else []) ++ lines rest) ∧
      enter_count out = 1 + enter_count rest := by
  have hsome : stat_filepath os (fuel + 1) base_dir filepath depth =
      some (.enter base_dir filepath depth :: ev ++
          [.out (.type_line depth "symlink" p), .readlink_call p] ++
          (if sym_ln.length = buf_size then [Event.out (.warn depth sym_ln)] else []) ++ rest) := by
    rw [stat_filepath_symlink os fuel depth base_dir filepath p ev sb sym_ln h hm hr, hrest]
    rfl
  rcases stat_filepath_frame os fuel depth base_dir filepath _ hsome with
    ⟨q, ec, hl, -⟩ | ⟨q, sb2, hm2, hq, -, -⟩ | ⟨q, ec, hl, hc⟩ | ⟨q, s2, rest2, hrest2, hl, hc⟩
  all_goals
    obtain ⟨hev, hen, -⟩ := lstat_loop_broke os depth base_dir filepath p ev sb h
    refine ⟨_, hsome, ?_, ?_⟩
    · by_cases hn : sym_ln.length = buf_size <;>
        simp [lines_enter, lines_out, lines_readlink_call, lines_append, hev, hn, lines]
    · unfold enter_count at hen ⊢
      by_cases hn : sym_ln.length = buf_size <;>
        simp [List.countP_cons, List.countP_append, hen, Event.is_enter, hn] <;> omega

/-! ## C7: a cycle of links -/

/-- When every call of a set of calls finds a symbolic link whose text is read
and leads to a call of the set again, no call of the set returns. -/
theorem stat_filepath_none_of_closed (os : OS) (I : String → String → Prop)
    (hI : ∀ base_dir filepath, I base_dir filepath → ∃ p sb sym_ln,
      (∀ depth, ∃ ev, lstat_loop os depth 2 base_dir filepath = (ev, .broke p sb)) ∧
      sb.st_mode &&& S_IFMT = S_IFLNK ∧ sys_readlink os p buf_size = .ok sym_ln ∧
      I (parent_dir_path p sym_ln) sym_ln) (fuel : Nat) :
    ∀ (base_dir filepath : String) (depth : Nat), I base_dir filepath →
      stat_filepath os fuel base_dir filepath depth = none := by
  induction fuel with
  | zero => intro base_dir filepath depth _; rfl
  | succ fuel ih =>
    intro base_dir filepath depth h
    obtain ⟨p, sb, sym_ln, hl, hm, hr, hnext⟩ := hI base_dir filepath h
    obtain ⟨ev, hl⟩ := hl depth
    rw [stat_filepath_symlink os fuel depth base_dir filepath p ev sb sym_ln hl hm hr,
      ih _ _ _ hnext]
    rfl

theorem os_cycle_closed (base_dir filepath : String)
    (h : filepath = "/d/a" ∨ filepath = "/d/b") : ∃ p sb sym_ln,
      (∀ depth, ∃ ev, lstat_loop os_cycle depth 2 base_dir filepath = (ev, .broke p sb)) ∧
      sb.st_mode &&& S_IFMT = S_IFLNK ∧ sys_readlink os_cycle p buf_size = .ok sym_ln ∧
      (sym_ln = "/d/a" ∨ sym_ln = "/d/b") := by
  rcases h with rfl | rfl
  · exact ⟨"/d/a", st_link 21 4, "/d/b",
      fun depth => ⟨_, lstat_loop_ok os_cycle depth 1 base_dir "/d/a" _ rfl⟩, by decide, rfl,
      Or.inr rfl⟩
  · exact ⟨"/d/b", st_link 22 4, "/d/a",
      fun depth => ⟨_, lstat_loop_ok os_cycle depth 1 base_dir "/d/b" _ rfl⟩, by decide, rfl,
      Or.inl rfl⟩

/-- No call of `stat_filepath` on a link of `os_cycle` returns. -/
theorem os_cycle_none (fuel : Nat) (base_dir : String) (depth : Nat) :
    stat_filepath os_cycle fuel base_dir "/d/a" depth = none :=
  stat_filepath_none_of_closed os_cycle (fun _ p => p = "/d/a" ∨ p = "/d/b")
    (fun b p h => os_cycle_closed b p h) fuel base_dir "/d/a" depth (Or.inl rfl)

/-- C7 (amended): a cycle of symbolic links ends the recursion by a failing
`lstat` only where the lookup of a hop fails.

First part.  Let `S` be a set of lookups (base directory and path) such that
the file system answers each of them with a symbolic link, found under the
path as it is or, after ENOENT, under the base directory joined with it,
whose text fits the read capacity and is, with the directory of the link
found, a lookup of `S` again; so the links lead to each other through the
last component of the paths, as `/d/a -> /d/b` and `/d/b -> /d/a` do.  Then a
call on a lookup of `S` returns for no room of the call stack: `lstat`
answers for the link itself at every hop, there is no ERROR line to end the
recursion, and the process ends by the overflow of the stack.

Second part.  When the lookup of the hop after a link fails with the `errno`
value `ec` (ELOOP for `/d/loop -> loop/x`, where the path `/d/loop/x` of the
second hop runs through the link), the call returns on a stack with room
for two invocations, and its lines are the symlink type line and one ERROR
line of `lstat` with `ec`, two columns further to the right. -/
theorem C7_cycle_never_returns (os : OS) (S : String → String → Prop)
    (hS : ∀ base_dir filepath, S base_dir filepath → ∃ q sb text,
      LooksAt os base_dir filepath q sb ∧ sb.st_mode &&& S_IFMT = S_IFLNK ∧
      os.readlink q = .ok text ∧ text.length ≤ buf_size ∧
      S (parent_dir_path q text) text) :
    (∀ (base_dir filepath : String), S base_dir filepath → ∀ (fuel depth : Nat),
      stat_filepath os fuel base_dir filepath depth = none) ∧
    (∀ (base_dir filepath q text p2 : String) (sb : Stat) (ec fuel depth : Nat),
      LooksAt os base_dir filepath q sb → sb.st_mode &&& S_IFMT = S_IFLNK →
      os.readlink q = .ok text → text.length < buf_size →
      LookupFails os (parent_dir_path q text) text p2 ec →
      ∃ out, stat_filepath os (fuel + 2) base_dir filepath depth = some out ∧
        lines out = [.type_line depth "symlink" q,
          .error (depth + 2) "lstat" p2 ec (os.strerror ec)] ∧
        enter_count out = 2) := by
  constructor
  · intro base_dir filepath h fuel depth
    refine stat_filepath_none_of_closed os S ?_ fuel base_dir filepath depth h
    intro b p hp
    obtain ⟨q, sb, text, hl, hm, hr, hlen, hnext⟩ := hS b p hp
    exact ⟨q, sb, text, fun d => looks_at_loop os b p q sb hl d, hm,
      sys_readlink_fits os q text hr hlen, hnext⟩
  · intro base_dir filepath q text p2 sb ec fuel depth hl hm hr hlen hfail
    obtain ⟨ev, hloop⟩ := looks_at_loop os base_dir filepath q sb hl depth
    obtain ⟨rest, hrest, hlines, hen⟩ :=
      lookup_fails_run os fuel (depth + 2) (parent_dir_path q text) text p2 ec hfail
    obtain ⟨out, hout, hol, hoe⟩ :=
      stat_filepath_symlink_run os (fuel + 1) depth base_dir filepath q ev sb text rest hloop hm
        (sys_readlink_fits os q text hr (Nat.le_of_lt hlen)) hrest
    refine ⟨out, hout, ?_, by rw [hoe, hen]⟩
    rw [hol, hlines, if_neg (Nat.ne_of_lt hlen)]
    rfl

/-- C7 (amended) on `os_cycle_rel`.  The links `/d/a -> b` and `/d/b -> a` are
found by the retry in `/d` and lead to each other: the call on `/d/a` has not
returned on a stack with room for 4096 invocations.  The link
`/d/loop -> loop/x` leads through itself: the second hop fails with ELOOP and
the call on `/d/loop` returns with the ERROR line. -/
theorem C7_cycle_never_returns_witness :
    os_cycle_rel.lstat "/d/a" = .ok (st_link 21 1) ∧ os_cycle_rel.readlink "/d/a" = .ok "b" ∧
    os_cycle_rel.lstat "/d/b" = .ok (st_link 22 1) ∧ os_cycle_rel.readlink "/d/b" = .ok "a" ∧
    os_cycle_rel.lstat "a" = .error ENOENT ∧ os_cycle_rel.lstat "b" = .error ENOENT ∧
    stat_filepath os_cycle_rel 4096 "" "/d/a" 2 = none ∧
    os_cycle_rel.lstat "/d/loop" = .ok (st_link 23 6) ∧
    os_cycle_rel.readlink "/d/loop" = .ok "loop/x" ∧
    os_cycle_rel.lstat "loop/x" = .error ENOENT ∧
    os_cycle_rel.lstat "/d/loop/x" = .error ELOOP ∧
    ∃ out, stat_filepath os_cycle_rel 2 "" "/d/loop" 2 = some out ∧
      lines out = [.type_line 2 "symlink" "/d/loop",
        .error 4 "lstat" "/d/loop/x" ELOOP "Too many levels of symbolic links"] ∧
      enter_count out = 2 :=
  have hS : ∀ base_dir filepath,
      (filepath = "/d/a" ∨ (base_dir = "/d" ∧ (filepath = "a" ∨ filepath = "b"))) →
      ∃ q sb text, LooksAt os_cycle_rel base_dir filepath q sb ∧
        sb.st_mode &&& S_IFMT = S_IFLNK ∧ os_cycle_rel.readlink q = .ok text ∧
        text.length ≤ buf_size ∧
        (text = "/d/a" ∨ (parent_dir_path q text = "/d" ∧ (text = "a" ∨ text = "b"))) := by
    rintro b p (rfl | ⟨rfl, rfl | rfl⟩)
    · exact ⟨"/d/a", st_link 21 1, "b", Or.inl ⟨rfl, rfl⟩, by decide, rfl, by decide,
        Or.inr ⟨by decide, Or.inr rfl⟩⟩
    · exact ⟨"/d/a", st_link 21 1, "b", Or.inr ⟨rfl, rfl, rfl, by decide, rfl⟩, by decide, rfl,
        by decide, Or.inr ⟨by decide, Or.inr rfl⟩⟩
    · exact ⟨"/d/b", st_link 22 1, "a", Or.inr ⟨rfl, rfl, rfl, by decide, rfl⟩, by decide, rfl,
        by decide, Or.inr ⟨by decide, Or.inl rfl⟩⟩
  ⟨rfl, rfl, rfl, rfl, rfl, rfl,
    (C7_cycle_never_returns os_cycle_rel
      (fun b p => p = "/d/a" ∨ (b = "/d" ∧ (p = "a" ∨ p = "b"))) hS).1 "" "/d/a" (Or.inl rfl)
      4096 2,
    rfl, rfl, rfl, rfl,
    (C7_cycle_never_returns os_cycle_rel
      (fun b p => p = "/d/a" ∨ (b = "/d" ∧ (p = "a" ∨ p = "b"))) hS).2 "" "/d/loop" "/d/loop"
      "loop/x" "/d/loop/x" (st_link 23 6) ELOOP 0 2 (Or.inl ⟨rfl, rfl⟩) (by decide) rfl
      (by decide) (Or.inr ⟨rfl, by decide, rfl, by decide, rfl⟩)⟩

/-- C7 as stated fails on `os_cycle` (`/d/a -> /d/b`, `/d/b -> /d/a`): both links
are found by `lstat`, each leads to the other, and there is no number of
hops after which the call on `/d/a` has returned, with or without an ERROR
line. -/
theorem C7_counterexample :
    os_cycle.lstat "/d/a" = .ok (st_link 21 4) ∧ os_cycle.readlink "/d/a" = .ok "/d/b" ∧
    os_cycle.lstat "/d/b" = .ok (st_link 22 4) ∧ os_cycle.readlink "/d/b" = .ok "/d/a" ∧
    ¬ ∃ fuel out, stat_filepath os_cycle fuel "" "/d/a" 2 = some out := by
  refine ⟨rfl, rfl, rfl, rfl, ?_⟩
  rintro ⟨fuel, out, h⟩
  rw [os_cycle_none fuel "" 2] at h
  exact Option.noConfusion h

/-! ## C10: `main` -/

theorem main_loop_fuel_le (os : OS) (fuel fuel2 : Nat) (hle : fuel ≤ fuel2) :
    ∀ (args : List String) (ev : List Event),
      main_loop os fuel args = some ev → main_loop os fuel2 args = some ev := by
  intro args
  induction args with
  | nil => intro ev h; simpa [main_loop] using h
  | cons a args ih =>
    intro ev h
    unfold main_loop at h ⊢
    cases h1 : stat_filepath os fuel "" a 2 with
    | none => rw [h1] at h; simp at h
    | some r =>
      rw [h1] at h
      rw [stat_filepath_fuel_le os fuel fuel2 hle _ _ _ r h1]
      cases h2 : main_loop os fuel args with
      | none => rw [h2] at h; simp at h
      | some ev2 =>
        rw [h2] at h
        rw [ih ev2 h2]
        exact h

/-- When the inspection of every argument ends, the loop of `main` ends, and
its run is the runs of the arguments in order, each after its header. -/
theorem main_loop_runs (os : OS) :
    ∀ args : List String,
      (∀ a ∈ args, ∃ fuel, (stat_filepath os fuel "" a 2).isSome = true) →
      ∃ fuel runs, List.Forall₂ (fun a r => stat_filepath os fuel "" a 2 = some r) args runs ∧
        main_loop os fuel args = some (framed_runs args runs) := by
  intro args
  induction args with
  | nil => intro _; exact ⟨0, [], List.Forall₂.nil, rfl⟩
  | cons a args ih =>
    intro h
    obtain ⟨f1, h1⟩ := h a (List.mem_cons_self _ _)
    obtain ⟨f2, runs, h2, h3⟩ := ih (fun b hb => h b (List.mem_cons_of_mem _ hb))
    obtain ⟨r, hr⟩ := Option.isSome_iff_exists.mp h1
    have hr2 := stat_filepath_fuel_le os f1 (max f1 f2) (le_max_left _ _) _ _ _ r hr
    have h32 := main_loop_fuel_le os f2 (max f1 f2) (le_max_right _ _) args _ h3
    refine ⟨max f1 f2, r :: runs, List.Forall₂.cons hr2 ?_, ?_⟩
    · exact h2.imp (fun {a} {b} hab =>
        stat_filepath_fuel_le os f2 (max f1 f2) (le_max_right _ _) _ _ _ b hab)
    · simp [main_loop, hr2, h32, framed_runs]

/-- C10 (amended): without a path argument (`argc < 2`) `main` prints the usage
message on standard output, inspects nothing and returns a status that is not
zero.  With one or more path arguments whose inspections all end, `main`
returns the status 0 whatever the runs hold (ERROR lines included), and its
run is, for each argument in the order of the command line, the header line
of the argument and then the run of `stat_filepath` on it with an empty
`base_dir` at depth 2. -/
theorem C10_main_exit_status (os : OS) (argv : List String)
    (hterm : ∀ a ∈ argv.drop 1, ∃ fuel, (stat_filepath os fuel "" a 2).isSome = true) :
    (argv.length < 2 → ∀ fuel, main os fuel argv = some ([.out .usage], EXIT_FAILURE)) ∧
    Line.usage.to_stderr = false ∧ EXIT_FAILURE ≠ 0 ∧ EXIT_SUCCESS = 0 ∧
    (2 ≤ argv.length →
      ∃ fuel runs,
        List.Forall₂ (fun a r => stat_filepath os fuel "" a 2 = some r) (argv.drop 1) runs ∧
        main os fuel argv = some (framed_runs (argv.drop 1) runs, EXIT_SUCCESS)) ∧
    (∀ a : String, (Line.header a).render = "\"" ++ a ++ "\" ==>>\n") := by
  refine ⟨?_, rfl, by decide, rfl, ?_, fun _ => rfl⟩
  · intro h fuel
    simp [main, h]
  · intro h
    obtain ⟨fuel, runs, h1, h2⟩ := main_loop_runs os (argv.drop 1) hterm
    refine ⟨fuel, runs, h1, ?_⟩
    have : ¬ argv.length < 2 := by omega
    unfold main
    rw [if_neg this, h2]

/-- C10 (amended) at the arguments `./a/link` and `nope` of `os_retry`: the
second one ends in an ERROR line, the status is 0. -/
theorem C10_main_exit_status_witness :
    ∃ fuel runs,
      List.Forall₂ (fun a r => stat_filepath os_retry fuel "" a 2 = some r)
        (["stat-ln-deref", "./a/link", "nope"].drop 1) runs ∧
      main os_retry fuel ["stat-ln-deref", "./a/link", "nope"] =
        some (framed_runs (["stat-ln-deref", "./a/link", "nope"].drop 1) runs, EXIT_SUCCESS) :=
  (C10_main_exit_status os_retry ["stat-ln-deref", "./a/link", "nope"]
    (by
      intro a ha
      simp only [List.drop_succ_cons, List.drop_zero, List.mem_cons, List.mem_singleton,
        List.not_mem_nil, or_false] at ha
      rcases ha with rfl | rfl
      · exact ⟨2, by decide⟩
      · exact ⟨1, by decide⟩)).2.2.2.2.1 (by decide)

/-- C10 as stated fails on `os_cycle`: with the one path argument `/d/a` there
is no number of hops after which `main` has returned a status. -/
theorem C10_counterexample :
    2 ≤ ["stat-ln-deref", "/d/a"].length ∧
    ¬ ∃ fuel r, main os_cycle fuel ["stat-ln-deref", "/d/a"] = some r := by
  refine ⟨by decide, ?_⟩
  rintro ⟨fuel, r, h⟩
  simp [main, main_loop, os_cycle_none fuel "" 2] at h

/-! ## C1: a chain of links -/

theorem link_dest_rooted (p text : String) (h : has_root_path text = true) :
    link_dest p text = text := by
  simp [link_dest, path_join, h]

/-- The chain that the lookups follow is a chain of the file system. -/
theorem tracked_chain_is_chain (os : OS) (n : Nat) :
    ∀ (base_dir filepath link : String),
      IsTrackedChain os n base_dir filepath link → IsChain os n link := by
  induction n with
  | zero =>
    intro base_dir filepath link h
    obtain ⟨q, sb, -, hsb, hm⟩ := h
    exact ⟨sb, hsb, hm⟩
  | succ n ih =>
    intro base_dir filepath link h
    obtain ⟨q, sb, text, -, hsb, hm, -, hread, -, hnext⟩ := h
    exact ⟨sb, text, hsb, hm, hread, ih _ _ _ hnext⟩

/-- The run of a chain of `n` links on a stack with room for `n + 1`
invocations. -/
theorem tracked_chain_run (os : OS) (n : Nat) :
    ∀ (base_dir filepath link : String) (depth : Nat),
      IsTrackedChain os n base_dir filepath link →
      ∃ out, stat_filepath os (n + 1) base_dir filepath depth = some out ∧
        chain_report os depth n out := by
  induction n with
  | zero =>
    intro base_dir filepath link depth hchain
    obtain ⟨q, sb, hlook, -, hm⟩ := hchain
    obtain ⟨ev, hl⟩ := looks_at_loop os base_dir filepath q sb hlook depth
    obtain ⟨hev, hen, -⟩ := lstat_loop_broke os depth base_dir filepath q ev sb hl
    have hlines : lines (.enter base_dir filepath depth :: ev ++
        .out (.type_line depth (typeword sb.st_mode) q) :: (record os depth sb).map Event.out) =
        Line.type_line depth (typeword sb.st_mode) q :: record os depth sb := by
      rw [List.cons_append, lines_enter, lines_append, hev, List.nil_append, lines_out,
        lines_map_out]
    refine ⟨_, stat_filepath_terminal os 0 depth base_dir filepath q ev sb hl hm, ?_, ?_, ?_⟩
    · exact ⟨fun _ => "", q, sb, hm, by rw [hlines]; simp⟩
    · rw [hlines]
      intro l hl
      simp only [List.mem_cons, record, List.mem_singleton, List.not_mem_nil, or_false] at hl
      rcases hl with rfl | rfl | rfl | rfl | rfl | rfl | rfl | rfl | rfl | rfl | rfl <;>
        exact ⟨rfl, rfl⟩
    · unfold enter_count at hen ⊢
      simp [List.countP_cons, List.countP_append, hen, Event.is_enter, record]
  | succ n ih =>
    intro base_dir filepath link depth hchain
    obtain ⟨q, sb, text, hlook, -, hm, hread, -, hlen, hnext⟩ := hchain
    obtain ⟨ev, hl⟩ := looks_at_loop os base_dir filepath q sb hlook depth
    have hr := sys_readlink_fits os q text hread (Nat.le_of_lt hlen)
    obtain ⟨rest, hrest, ⟨links, p, sbp, hmp, hlp⟩, hclean, hcount⟩ :=
      ih (parent_dir_path q text) text (link_dest link text) (depth + 2) hnext
    obtain ⟨out, hout, hlines, hen⟩ :=
      stat_filepath_symlink_run os (n + 1) depth base_dir filepath q ev sb text rest hl hm hr
        hrest
    have hne : ¬ text.length = buf_size := Nat.ne_of_lt hlen
    rw [if_neg hne, List.nil_append] at hlines
    refine ⟨out, hout, ?_, ?_, ?_⟩
    · refine ⟨fun k => match k with | 0 => q | k + 1 => links k, p, sbp, hmp, ?_⟩
      rw [hlines, hlp, List.range_succ_eq_map]
      simp only [List.map_cons, List.map_map, List.cons_append, Nat.mul_zero, Nat.add_zero]
      have e1 : depth + 2 + 2 * n = depth + 2 * (n + 1) := by ring
      have e2 : (fun k => Line.type_line (depth + 2 + 2 * k) "symlink" (links k)) =
          ((fun k => Line.type_line (depth + 2 * k) "symlink"
            (match k with | 0 => q | k + 1 => links k)) ∘ Nat.succ) := by
        funext k
        have : depth + 2 + 2 * k = depth + 2 * (k + 1) := by ring
        simp only [Function.comp, this]
      rw [e1, e2]
    · rw [hlines]
      intro l hl
      rcases List.mem_cons.mp hl with rfl | hl
      · exact ⟨rfl, rfl⟩
      · exact hclean l hl
    · rw [hen, hcount]; omega

/-- On a stack with room for at most `n` invocations the call on a chain of `n`
links does not return. -/
theorem tracked_chain_overflow (os : OS) (n : Nat) :
    ∀ (fuel : Nat) (base_dir filepath link : String) (depth : Nat),
      IsTrackedChain os n base_dir filepath link → fuel ≤ n →
      stat_filepath os fuel base_dir filepath depth = none := by
  induction n with
  | zero =>
    intro fuel base_dir filepath link depth _ hle
    have : fuel = 0 := Nat.le_zero.mp hle
    subst this
    rfl
  | succ n ih =>
    intro fuel base_dir filepath link depth hchain hle
    cases fuel with
    | zero => rfl
    | succ fuel =>
      obtain ⟨q, sb, text, hlook, -, hm, hread, -, hlen, hnext⟩ := hchain
      obtain ⟨ev, hl⟩ := looks_at_loop os base_dir filepath q sb hlook depth
      have hr := sys_readlink_fits os q text hread (Nat.le_of_lt hlen)
      rw [stat_filepath_symlink os fuel depth base_dir filepath q ev sb text hl hm hr,
        ih fuel _ _ _ _ hnext (Nat.le_of_succ_le_succ hle)]
      rfl

/-- The lines of a chain report are indented by at most `d + 2 * n`. -/
theorem chain_report_depth (os : OS) (d n : Nat) (out : List Event)
    (h : chain_report os d n out) : ∀ l ∈ lines out, l.depth ≤ d + 2 * n := by
  obtain ⟨⟨links, p, sb, -, hlines⟩, -, -⟩ := h
  intro l hl
  rw [hlines] at hl
  rcases List.mem_append.mp hl with hl | hl
  · obtain ⟨k, hk, rfl⟩ := List.mem_map.mp hl
    have := List.mem_range.mp hk
    simp only [Line.depth]
    omega
  · simp only [List.mem_cons, record, List.mem_singleton, List.not_mem_nil, or_false] at hl
    rcases hl with rfl | rfl | rfl | rfl | rfl | rfl | rfl | rfl | rfl | rfl | rfl <;>
      exact Nat.le_refl _

/-- C1 (amended): let the argument name a chain of `n` symbolic links that ends
in an entry which is not a symbolic link, with `2 + 2 * n` below `2^31`, every
link text of the chain shorter than 2047 bytes, and the lookup of every hop
(the bare link text from the working directory first, the directory of the
link joined with the text after ENOENT) finding the entry of the chain.  On
a call stack with room for `n + 1` nested invocations the call made by `main`
(empty `base_dir`, depth 2) returns after `n + 1` entries of `stat_filepath`;
its lines are `n` symlink type lines, the `k`-th after `2 + 2 * k` blanks,
followed by the type line and the ten field lines of the last entry after
`2 + 2 * n` blanks; there is no ERROR and no WARN line, and every indentation
is below `2^31`.  For `n = 0` and a regular file the type word is
`regular file`.  On a call stack with less room the call does not return. -/
theorem C1_chain_report (os : OS) (n : Nat) (filepath : String) (fuel : Nat)
    (h : IsTrackedChain os n "" filepath filepath) (hint : 2 + 2 * n < 2 ^ 31) :
    IsChain os n filepath ∧
    (n + 1 ≤ fuel →
      ∃ out, stat_filepath os fuel "" filepath 2 = some out ∧
        chain_report os 2 n out ∧
        (∀ l ∈ lines out, l.depth < 2 ^ 31) ∧
        (n = 0 → ∀ sb, os.lstat filepath = .ok sb → sb.st_mode &&& S_IFMT = S_IFREG →
          lines out = Line.type_line 2 "regular file" filepath :: record os 2 sb)) ∧
    (fuel ≤ n → stat_filepath os fuel "" filepath 2 = none) := by
  refine ⟨tracked_chain_is_chain os n _ _ _ h, ?_, fun hle =>
    tracked_chain_overflow os n fuel _ _ _ 2 h hle⟩
  intro hfuel
  obtain ⟨out, hout, hrep⟩ := tracked_chain_run os n "" filepath filepath 2 h
  have hout2 := stat_filepath_fuel_le os (n + 1) fuel hfuel _ _ _ _ hout
  refine ⟨out, hout2, hrep, ?_, ?_⟩
  · intro l hl
    exact Nat.lt_of_le_of_lt (chain_report_depth os 2 n out hrep l hl) hint
  · intro hn sb hsb hreg
    subst hn
    have hm : sb.st_mode &&& S_IFMT ≠ S_IFLNK := by rw [hreg]; decide
    have hrun := stat_filepath_terminal os 0 2 "" filepath filepath _ sb
      (lstat_loop_ok os 2 1 "" filepath sb hsb) hm
    rw [hrun] at hout
    cases hout
    have htw : typeword sb.st_mode = "regular file" := by
      simp [typeword, hreg, S_IFREG, S_IFBLK, S_IFCHR, S_IFDIR, S_IFIFO]
    simp only [List.cons_append, List.nil_append, lines_enter, lines_lstat_call, lines_out,
      lines_map_out, htw]

/-- C1 (amended) at the argument `./l` of `os_here`, a chain of one link whose
text `f` is found from the working directory and names the entry the link
leads to: the call returns with room for two invocations and does not
return with room for one. -/
theorem C1_chain_report_witness :
    IsTrackedChain os_here 1 "" "./l" "./l" ∧ IsChain os_here 1 "./l" ∧
    (∃ out, stat_filepath os_here 2 "" "./l" 2 = some out ∧ chain_report os_here 2 1 out) ∧
    stat_filepath os_here 1 "" "./l" 2 = none :=
  have hc : IsTrackedChain os_here 1 "" "./l" "./l" :=
    ⟨"./l", st_link 18 1, "f", Or.inl ⟨rfl, rfl⟩, rfl, by decide, rfl, rfl, by decide,
      ⟨"f", st_file 17, Or.inl ⟨rfl, rfl⟩, rfl, by decide⟩⟩
  ⟨hc, (C1_chain_report os_here 1 "./l" 2 hc (by decide)).1,
    ((C1_chain_report os_here 1 "./l" 2 hc (by decide)).2.1 (Nat.le_refl 2)).imp
      (fun _ ho => ⟨ho.1, ho.2.1⟩),
    (C1_chain_report os_here 1 "./l" 1 hc (by decide)).2.2 (Nat.le_refl 1)⟩

/-- The retry of `os_retry` is a tracked chain as well: the text `b` of
`./a/link` is not found from the working directory and found in `./a`. -/
theorem os_retry_tracked : IsTrackedChain os_retry 1 "" "./a/link" "./a/link" :=
  ⟨"./a/link", st_link 12 1, "b", Or.inl ⟨rfl, rfl⟩, rfl, by decide, rfl, rfl, by decide,
    ⟨"./a/b", st_file 13, Or.inr ⟨rfl, by decide, rfl, by decide, rfl⟩, rfl, by decide⟩⟩


theorem long_text_data_length : long_text.data.length = 2047 := by
  show ('/' :: (List.replicate 2044 '/' ++ ['a', 'b'])).length = 2047
  rw [List.length_cons, List.length_append, List.length_replicate]
  rfl

theorem long_text_length : long_text.length = 2047 := long_text_data_length

theorem long_text_ne (s : String) (h : s.length < 2047) : (long_text == s) = false := by
  rw [beq_eq_false_iff_ne]
  intro he
  rw [← he, long_text_length] at h
  exact Nat.lt_irrefl _ h

theorem os_long_lstat_long_text : os_long.lstat long_text = .ok (st_file 30) := by
  have h1 := long_text_ne "/" (by decide)
  have h2 := long_text_ne "/ab" (by decide)
  have h3 := long_text_ne "/l" (by decide)
  simp [os_long, table_os, List.lookup, h1, h2, h3]

theorem os_long_readlink : sys_readlink os_long "/l" buf_size = .ok long_text := by
  have hr : os_long.readlink "/l" = .ok long_text := rfl
  unfold sys_readlink
  rw [hr]
  have : List.take buf_size long_text.data = long_text.data :=
    List.take_of_length_le (by rw [long_text_data_length]; decide)
  simp [this]

/-- The run of the argument `/l` of `os_long`. -/
theorem os_long_run :
    stat_filepath os_long 2 "" "/l" 2 =
      some ([.enter "" "/l" 2, .lstat_call "/l", .out (.type_line 2 "symlink" "/l"),
          .readlink_call "/l", .out (.warn 2 long_text),
          .enter "" long_text 4, .lstat_call long_text,
          .out (.type_line 4 "regular file" long_text)] ++
        (record os_long 4 (st_file 30)).map Event.out) := by
  have hroot : has_root_path long_text = true := rfl
  have hpd : parent_dir_path "/l" long_text = "" := by simp [parent_dir_path, hroot]
  have h2 : stat_filepath os_long 1 "" long_text 4 =
      some (.enter "" long_text 4 :: [.lstat_call long_text] ++
        .out (.type_line 4 (typeword (st_file 30).st_mode) long_text) ::
          (record os_long 4 (st_file 30)).map Event.out) :=
    stat_filepath_terminal os_long 0 4 "" long_text long_text _ (st_file 30)
      (lstat_loop_ok os_long 4 1 "" long_text _ os_long_lstat_long_text) (by decide)
  have htw : typeword (st_file 30).st_mode = "regular file" := by decide
  rw [stat_filepath_symlink os_long 1 2 "" "/l" "/l" [.lstat_call "/l"] (st_link 31 2047)
    long_text (lstat_loop_ok os_long 2 1 "" "/l" _ rfl) (by decide) os_long_readlink,
    hpd, h2, htw]
  have hlen : long_text.length = buf_size := long_text_length
  simp [hlen]

/-- C1 as stated fails on `os_long`: `/l` is a chain of one link that ends in
the regular file `/ab`, and the run of the argument `/l` holds a WARN line,
because the link text has exactly 2047 bytes. -/
theorem C1_counterexample :
    IsChain os_long 1 "/l" ∧
    ∃ out, stat_filepath os_long 2 "" "/l" 2 = some out ∧
      Line.warn 2 long_text ∈ lines out ∧
      ¬ chain_report os_long 2 1 out ∧
      ∀ fuel out2, stat_filepath os_long fuel "" "/l" 2 = some out2 →
        ¬ chain_report os_long 2 1 out2 := by
  have hroot : has_root_path long_text = true := rfl
  have hmem : Line.warn 2 long_text ∈ lines ([.enter "" "/l" 2, .lstat_call "/l",
      .out (.type_line 2 "symlink" "/l"), .readlink_call "/l", .out (.warn 2 long_text),
      .enter "" long_text 4, .lstat_call long_text,
      .out (.type_line 4 "regular file" long_text)] ++
      (record os_long 4 (st_file 30)).map Event.out) := by
    simp [lines, lines_append]
  have hnot : ¬ chain_report os_long 2 1 ([.enter "" "/l" 2, .lstat_call "/l",
      .out (.type_line 2 "symlink" "/l"), .readlink_call "/l", .out (.warn 2 long_text),
      .enter "" long_text 4, .lstat_call long_text,
      .out (.type_line 4 "regular file" long_text)] ++
      (record os_long 4 (st_file 30)).map Event.out) := by
    rintro ⟨-, hclean, -⟩
    have := (hclean _ hmem).2
    simp [Line.is_warn] at this
  refine ⟨⟨st_link 31 2047, long_text, rfl, by decide, rfl, ?_⟩, _, os_long_run, hmem, hnot, ?_⟩
  · rw [link_dest_rooted "/l" long_text hroot]
    exact ⟨st_file 30, os_long_lstat_long_text, by decide⟩
  · intro fuel out2 h2
    rw [← stat_filepath_fuel_unique os_long 2 fuel "" "/l" 2 _ out2 os_long_run h2]
    exact hnot

end StatLnDeref
